import Mathlib

/-!
Shallow embedding of the k3k cluster reconciliation controller
(`src/pkg/controller/cluster/cluster.go`) and proofs checking the
natural-language specification against it.

The controller's pure control flow is translated into executable Lean
functions.  External collaborators (the Kubernetes resource client, the
discovery client, the port allocator, the token fetch, the sub-resource
"ensure" helpers defined in other packages) are modelled as an environment
record `ReconcileEnv` / `EngineEnv` whose fields hold the result each call
would return during the reconciliation pass under study.  Every definition
follows the Go source; the few entities whose defining code lives outside
`src/` (API constants and the status updater) carry a doc comment starting
with `Modelled from the spec:`.
-/

namespace K3k

/-! ## Constants from `cluster.go` (lines 47-59) -/

def clusterFinalizerName : String := "cluster.k3k.io/finalizer"

def ClusterInvalidName : String := "system"

def defaultVirtualClusterCIDR : String := "10.52.0.0/16"

def defaultVirtualServiceCIDR : String := "10.53.0.0/16"

def defaultSharedClusterCIDR : String := "10.42.0.0/16"

def defaultSharedServiceCIDR : String := "10.43.0.0/16"

/-- Modelled from the spec: the API types package (outside `src/`) defines the
shared cluster mode identifier compared against `cluster.Spec.Mode`
(`v1alpha1.SharedClusterMode`); the spec's glossary names the two modes
`shared` and `virtual`. -/
def SharedClusterMode : String := "shared"

/-- Modelled from the spec: `v1alpha1.VirtualClusterMode` (outside `src/`),
the virtual mode identifier. -/
def VirtualClusterMode : String := "virtual"

/-- Modelled from the spec: `agent.VirtualNodeMode` (outside `src/`), the mode
value for which `ensureAgent` builds the virtual-node agent variant. -/
def VirtualNodeMode : String := "virtual"

/-- Modelled from the spec: `v1alpha1.ClusterUnknown` phase string (outside
`src/`); the spec's state machine is `Unknown` -> `Provisioning` -> `Running`. -/
def ClusterUnknown : String := "Unknown"

/-- Modelled from the spec: `v1alpha1.ClusterProvisioning` phase string
(outside `src/`). -/
def ClusterProvisioning : String := "Provisioning"

/-- Modelled from the spec: the `ConditionReady` condition type used by the
controller's status handling (defined outside `src/`); the spec requires a
`Ready` condition. -/
def ConditionReady : String := "Ready"

/-- Modelled from the spec: the `ReasonProvisioning` condition reason
(defined outside `src/`); the spec requires reason `Provisioning`. -/
def ReasonProvisioning : String := "Provisioning"

/-- The `metav1.ConditionFalse` constant. -/
def ConditionFalse : String := "False"

/-- The `metav1.ConditionTrue` constant. -/
def ConditionTrue : String := "True"

/-! ## Data model -/

/-- A `metav1.Condition` without the time/generation bookkeeping fields. -/
structure Condition where
  condType : String
  condStatus : String
  reason : String
  message : String
deriving DecidableEq, Repr

/-- Model of `meta.SetStatusCondition`: replace the first condition with the same type,
or append the new condition if no condition of that type exists. -/
def setStatusCondition : List Condition → Condition → List Condition
  | [], n => [n]
  | cond :: rest, n =>
    if cond.condType = n.condType then n :: rest
    else cond :: setStatusCondition rest n

/-- Model of `meta.FindStatusCondition`. -/
def findStatusCondition (conds : List Condition) (t : String) : Option Condition :=
  conds.find? (fun cond => cond.condType = t)

/-- The fields of `v1alpha1.ClusterSpec` read by the reconciler in
`cluster.go`. -/
structure ClusterSpec where
  mode : String
  version : String
  clusterCIDR : String
  serviceCIDR : String
  mirrorHostNodes : Bool
deriving DecidableEq, Repr

/-- The fields of `v1alpha1.ClusterStatus` written by the reconciler in
`cluster.go`.  Integer ports use `Nat` with `0` meaning unset. -/
structure ClusterStatus where
  phase : String
  conditions : List Condition
  hostVersion : String
  clusterCIDR : String
  serviceCIDR : String
  policyName : String
  kubeletPort : Nat
  webhookPort : Nat
deriving DecidableEq, Repr

/-- A `v1alpha1.Cluster` object: identity, deletion marker, finalizers, spec
and status. -/
structure Cluster where
  name : String
  nsName : String
  deletionTimestampZero : Bool
  finalizers : List String
  spec : ClusterSpec
  status : ClusterStatus
deriving DecidableEq, Repr

/-- The `Spec.AllowedMode` (and name) of a `v1alpha1.VirtualClusterPolicy`. -/
structure PolicyInfo where
  name : String
  allowedMode : String
deriving DecidableEq, Repr

/-- The result of reading the Cluster's namespace: the value of the
`policy.k3k.io/policy-name` label, `none` when the label is absent. -/
structure NsInfo where
  policyLabel : Option String
deriving DecidableEq, Repr

/-- The kube-apiserver pod as seen by `lookupServiceCIDR`: the argument list of
its first container (`podList.Items[0].Spec.Containers[0].Args`). -/
structure Pod where
  args : List String
deriving DecidableEq, Repr

/-! ## Error model

`GoErr` covers the error values observable in `cluster.go`:
`ErrClusterValidation` wrappers produced by `validate`, errors for which
`errors.Is(err, bootstrap.ErrServerNotReady)` holds, `net.ParseCIDR` failures
produced inside `lookupServiceCIDR`, and everything else (client /
allocator / generator errors), carried with an opaque tag.  Errors supplied
by the environment (`EnvErr`) can never be `ErrClusterValidation` or a
`net.ParseCIDR` failure: both sentinels are produced only locally. -/

inductive GoErr where
  | validation (msg : String)
  | serverNotReady
  | cidrParse (raw : String)
  | ext (tag : String)
deriving DecidableEq, Repr

inductive EnvErr where
  | serverNotReady
  | ext (tag : String)
deriving DecidableEq, Repr

def EnvErr.toGoErr : EnvErr → GoErr
  | .serverNotReady => .serverNotReady
  | .ext tag => .ext tag

/-- Whether an optional error is the distinguished `ErrClusterValidation`
kind (`errors.Is(err, ErrClusterValidation)`). -/
def isValidationErr : Option GoErr → Bool
  | some (.validation _) => true
  | _ => false

/-- The result of the pod List call in `lookupServiceCIDR`: success, a
NotFound error (swallowed by the code), or another error. -/
inductive PodListResult where
  | ok (pods : List Pod)
  | notFoundErr
  | err (e : EnvErr)

/-! ## Go string primitives

The Go code uses `strings.Split`, `strings.TrimSpace`, `strings.HasPrefix`
and `strings.TrimPrefix`.  They are modelled here by structurally recursive
functions over character lists so that every definition in this file is
computable by the kernel on concrete inputs. -/

/-- Split off the part of `s` before the first occurrence of `sep` and the
part after it, or `none` when `sep` does not occur. -/
def breakOn (sep : List Char) : List Char → Option (List Char × List Char)
  | [] => none
  | c :: rest =>
    if sep.isPrefixOf (c :: rest) then some ([], (c :: rest).drop sep.length)
    else match breakOn sep rest with
      | none => none
      | some (pre, post) => some (c :: pre, post)

/-- Repeatedly split at `sep`; the fuel bounds the recursion (any value
above the input length is exact). -/
def splitList (sep : List Char) : Nat → List Char → List (List Char)
  | 0, s => [s]
  | fuel + 1, s =>
    match breakOn sep s with
    | none => [s]
    | some (pre, post) => pre :: splitList sep fuel post

/-- Go `strings.Split s sep` for a non-empty separator. -/
def stringsSplit (s sep : String) : List String :=
  (splitList sep.data (s.data.length + 1) s.data).map String.mk

def trimLeftChars : List Char → List Char
  | [] => []
  | c :: rest => if c.isWhitespace then trimLeftChars rest else c :: rest

/-- Go `strings.TrimSpace` (ASCII whitespace). -/
def stringsTrimSpace (s : String) : String :=
  ⟨(trimLeftChars ((trimLeftChars s.data).reverse)).reverse⟩

def digitsToNat : List Char → Nat → Option Nat
  | [], acc => some acc
  | c :: rest, acc =>
    if c.isDigit then digitsToNat rest (acc * 10 + (c.toNat - '0'.toNat)) else none

/-- Parse a non-empty all-digit decimal string (Go's `dtoi`). -/
def parseDecimal (s : String) : Option Nat :=
  match s.data with
  | [] => none
  | l => digitsToNat l 0

/-- Go `strings.HasPrefix`. -/
def strStartsWith (s pre : String) : Bool := pre.data.isPrefixOf s.data

/-- Go `strings.TrimPrefix`. -/
def strTrimLeading (s pre : String) : String :=
  if pre.data.isPrefixOf s.data then ⟨s.data.drop pre.data.length⟩ else s

/-! ## CIDR parsing (`net.ParseCIDR` + `IPNet.String`, IPv4 fragment)

`lookupServiceCIDR` validates candidate strings with `net.ParseCIDR` and
records `serviceCIDRAddr.String()`, the canonical masked network.  The
repository only deals in IPv4 service ranges, so the model implements the
IPv4 fragment of `net.ParseCIDR`: dotted-quad address (octets 0-255, no
leading zeros, per Go's `ParseIP`), a `/`-separated decimal prefix length
0-32, and the canonical output `maskedAddress/len`. -/

/-- Parse one dotted-quad octet as Go `ParseIP` does: 1-3 decimal digits,
no leading zero, value at most 255. -/
def parseOctet (t : String) : Option Nat :=
  if t.length = 0 ∨ 3 < t.length then none
  else if 1 < t.length ∧ t.front = '0' then none
  else match parseDecimal t with
    | none => none
    | some n => if n ≤ 255 then some n else none

/-- Parse the prefix length: decimal digits, value at most 32. -/
def parseMaskLen (t : String) : Option Nat :=
  if t.length = 0 then none
  else match parseDecimal t with
    | none => none
    | some n => if n ≤ 32 then some n else none

/-- Dotted-quad rendering of a 32-bit address (`net.IP.String`). -/
def ipToString (n : Nat) : String :=
  toString (n / 2 ^ 24 % 256) ++ "." ++ toString (n / 2 ^ 16 % 256) ++ "."
    ++ toString (n / 2 ^ 8 % 256) ++ "." ++ toString (n % 256)

/-- IPv4 `net.ParseCIDR` followed by `IPNet.String()`: returns the canonical
masked network string (host bits cleared), or `none` when the input is not a
valid CIDR. -/
def parseCIDR (t : String) : Option String :=
  match stringsSplit t "/" with
  | [addr, mask] =>
    match stringsSplit addr "." with
    | [a, b, c, d] =>
      match parseOctet a, parseOctet b, parseOctet c, parseOctet d, parseMaskLen mask with
      | some a, some b, some c, some d, some n =>
        let ip := ((a * 256 + b) * 256 + c) * 256 + d
        let network := ip / 2 ^ (32 - n) * 2 ^ (32 - n)
        some (ipToString network ++ "/" ++ toString n)
      | _, _, _, _, _ => none
    | _ => none
  | _ => none

/-! ## Environment of one reconciliation pass -/

/-- Results of the external calls `reconcile` can make during one pass
(`cluster.go` lines 226-337 and the helpers they invoke).  Sub-resource
"ensure" helpers whose own convergence logic lives behind the resource
client are summarised by the error they return (`none` = success). -/
structure ReconcileEnv where
  getNamespace : Except EnvErr NsInfo
  policyResult : Except EnvErr PolicyInfo
  serverVersion : Except EnvErr String
  token : Except EnvErr String
  failingServiceCreateErr : Option String
  listPods : PodListResult
  allocateKubeletPort : Except EnvErr Nat
  allocateWebhookPort : Except EnvErr Nat
  ensureNetworkPolicy : Option EnvErr
  ensureClusterService : Except EnvErr String
  createClusterConfigs : Option EnvErr
  ensureServer : Option EnvErr
  ensureAgentResources : Option EnvErr
  ensureIngress : Option EnvErr
  ensureBootstrapSecret : Option EnvErr
  ensureKubeconfigSecret : Option EnvErr
  bindClusterRoles : Option EnvErr

/-- Trace events recording which external steps of `reconcile` ran, in
order.  The trace is proof instrumentation; it does not influence the
computation. -/
inductive Ev where
  | getNamespace
  | getPolicy
  | validateCheck
  | serverVersionQuery
  | tokenFetch
  | setCIDRs
  | cidrLookupFailingService
  | cidrLookupPodList
  | ensureNetworkPolicy
  | ensureClusterService
  | createConfigs
  | ensureServerWorkload
  | allocKubeletPort
  | allocWebhookPort
  | ensureAgentResources
  | ensureIngress
  | ensureBootstrapSecret
  | ensureKubeconfigSecret
  | bindRoles
deriving DecidableEq, Repr

/-! ## `lookupServiceCIDR` (`cluster.go` lines 721-793) -/

def rangeHintMarker : String := "The range of valid IPs is "

def serviceRangeFlag : String := "--service-cluster-ip-range="

/-- The loop over the kube-apiserver container arguments: find the first
argument carrying the service-range flag; if its value parses, return the
canonical network, otherwise `break` (the function then falls through to
`return "", nil`). -/
def scanAPIServerArgs : List String → String
  | [] => ""
  | arg :: rest =>
    if strStartsWith arg serviceRangeFlag then
      match parseCIDR (strTrimLeading arg serviceRangeFlag) with
      | none => ""
      | some canon => canon
    else scanAPIServerArgs rest

/-- Second strategy of `lookupServiceCIDR`: list kube-apiserver pods
(NotFound tolerated) and scan the first pod's first container arguments. -/
def lookupFromAPIServerPod (env : ReconcileEnv) (evs : List Ev) :
    String × Option GoErr × List Ev :=
  match env.listPods with
  | PodListResult.err e => ("", some e.toGoErr, evs ++ [Ev.cidrLookupPodList])
  | PodListResult.notFoundErr => ("", none, evs ++ [Ev.cidrLookupPodList])
  | PodListResult.ok pods =>
    match pods with
    | [] => ("", none, evs ++ [Ev.cidrLookupPodList])
    | apiServerPod :: _ =>
      (scanAPIServerArgs apiServerPod.args, none, evs ++ [Ev.cidrLookupPodList])

/-- Model of `lookupServiceCIDR`: create a deliberately failing Service; if its error
message contains the valid-range hint, parse the hinted value (a parse
failure is returned as an error, without trying the pod fallback); otherwise
fall back to scanning the kube-apiserver pod arguments.  Returns the result,
the error, and the trace of lookup steps. -/
def lookupServiceCIDR (env : ReconcileEnv) : String × Option GoErr × List Ev :=
  match env.failingServiceCreateErr with
  | none => lookupFromAPIServerPod env [Ev.cidrLookupFailingService]
  | some errMsg =>
    if h : 1 < (stringsSplit errMsg rangeHintMarker).length then
      match parseCIDR (stringsTrimSpace ((stringsSplit errMsg rangeHintMarker).get ⟨1, h⟩)) with
      | none =>
        ("", some (GoErr.cidrParse
           (stringsTrimSpace ((stringsSplit errMsg rangeHintMarker).get ⟨1, h⟩))),
         [Ev.cidrLookupFailingService])
      | some canon => (canon, none, [Ev.cidrLookupFailingService])
    else
      lookupFromAPIServerPod env [Ev.cidrLookupFailingService]

/-! ## The convergence procedure `reconcile` (`cluster.go` lines 226-337)

The Go function threads a mutable `cluster` pointer and returns early on the
first error.  The model threads an explicit state `RecSt` (the cluster plus
the event trace) through an `Except` computation whose exception carries the
state at the moment of failure together with the Go error. -/

structure RecSt where
  c : Cluster
  evs : List Ev
deriving DecidableEq, Repr

abbrev RecM (α : Type) := Except (RecSt × GoErr) α

/-- Model of `validate` (`cluster.go` lines 706-716): the Cluster name must not be the
reserved name, and the mode must match the policy's allowed mode. -/
def validate (c : Cluster) (pol : PolicyInfo) : Option GoErr :=
  if c.name = ClusterInvalidName then
    some (GoErr.validation ("invalid cluster name " ++ c.name))
  else if c.spec.mode ≠ pol.allowedMode then
    some (GoErr.validation
      ("mode " ++ c.spec.mode ++ " is not allowed by the policy " ++ pol.name))
  else none

/-- Lines 229-246: read the Cluster's namespace, mirror the policy label into
`Status.PolicyName`, and when the label is present and non-empty, fetch the
policy and validate against it. -/
def stagePolicy (env : ReconcileEnv) (s0 : RecSt) : RecM RecSt :=
  match env.getNamespace with
  | .error e => .error ({ s0 with evs := s0.evs ++ [Ev.getNamespace] }, e.toGoErr)
  | .ok nsi =>
    let policyName := nsi.policyLabel.getD ""
    let s : RecSt :=
      { c := { s0.c with status := { s0.c.status with policyName := policyName } }
        evs := s0.evs ++ [Ev.getNamespace] }
    if nsi.policyLabel.isSome && policyName != "" then
      match env.policyResult with
      | .error e => .error ({ s with evs := s.evs ++ [Ev.getPolicy] }, e.toGoErr)
      | .ok pol =>
        let s : RecSt := { s with evs := s.evs ++ [Ev.getPolicy, Ev.validateCheck] }
        match validate s.c pol with
        | some e => .error (s, e)
        | none => .ok s
    else .ok s

/-- Lines 248-261: when neither the spec version nor the recorded host
version is set, query the host's version, strip the build-metadata suffix
(the part after `+`), append `-k3s1`, and record it in
`Status.HostVersion`. -/
def stageVersion (env : ReconcileEnv) (s0 : RecSt) : RecM RecSt :=
  if s0.c.spec.version = "" ∧ s0.c.status.hostVersion = "" then
    match env.serverVersion with
    | .error e => .error ({ s0 with evs := s0.evs ++ [Ev.serverVersionQuery] }, e.toGoErr)
    | .ok hostVersion =>
      .ok { c := { s0.c with status :=
              { s0.c.status with hostVersion :=
                  ((stringsSplit hostVersion "+").headD "") ++ "-k3s1" } }
            evs := s0.evs ++ [Ev.serverVersionQuery] }
  else .ok s0

/-- Line 263: fetch the join token (`c.token`, defined elsewhere; an external
read-or-generate against the resource client). -/
def stageToken (env : ReconcileEnv) (s0 : RecSt) : RecM RecSt :=
  let s : RecSt := { s0 with evs := s0.evs ++ [Ev.tokenFetch] }
  match env.token with
  | .error e => .error (s, e.toGoErr)
  | .ok _ => .ok s

/-- Lines 270-276: the cluster CIDR recorded in status, recomputed from the
spec; an empty spec value falls back to the mode-specific default. -/
def clusterCIDROf (spec : ClusterSpec) : String :=
  if spec.clusterCIDR = "" then
    if spec.mode = SharedClusterMode then defaultSharedClusterCIDR
    else defaultVirtualClusterCIDR
  else spec.clusterCIDR

/-- Lines 284-290: the value the shared-mode lookup leaves in
`Status.ServiceCIDR`: the lookup result on success, the fixed shared default
when the lookup returned an error (the error itself is swallowed). -/
def lookupOutcome (env : ReconcileEnv) : String :=
  match (lookupServiceCIDR env).2.1 with
  | some _ => defaultSharedServiceCIDR
  | none => (lookupServiceCIDR env).1

/-- Lines 278-299: the service CIDR recorded in status, recomputed from the
spec; an empty spec value triggers the lookup in shared mode (an error from
the lookup is swallowed and replaced by the shared default) and the fixed
default in virtual mode. -/
def serviceCIDROf (env : ReconcileEnv) (spec : ClusterSpec) : String :=
  if spec.serviceCIDR = "" then
    if spec.mode = SharedClusterMode then lookupOutcome env
    else if spec.mode = VirtualClusterMode then defaultVirtualServiceCIDR
    else ""
  else spec.serviceCIDR

/-- Whether the pass performs the service-CIDR lookup (shared mode, empty
spec service CIDR). -/
def serviceLookupRuns (spec : ClusterSpec) : Bool :=
  spec.serviceCIDR = "" && spec.mode = SharedClusterMode

/-- Lines 270-299 as one step: write both CIDRs into status.  This step
itself never fails: a lookup error is logged and replaced by the default. -/
def stageCIDR (env : ReconcileEnv) (s0 : RecSt) : RecM RecSt :=
  let s : RecSt := { s0 with evs :=
    s0.evs ++ [Ev.setCIDRs]
      ++ (if serviceLookupRuns s0.c.spec then (lookupServiceCIDR env).2.2 else []) }
  .ok { s with c := { s.c with status :=
    { s.c.status with
        clusterCIDR := clusterCIDROf s.c.spec
        serviceCIDR := serviceCIDROf env s.c.spec } } }

/-- Run a sequence of sub-resource ensure steps, each summarised by its
trace event and the error the environment reports for it. -/
def runEnsureSteps (s : RecSt) : List (Ev × Option EnvErr) → RecM RecSt
  | [] => .ok s
  | (ev, r) :: rest =>
    let s' : RecSt := { s with evs := s.evs ++ [ev] }
    match r with
    | some e => .error (s', e.toGoErr)
    | none => runEnsureSteps s' rest

def exceptToErr {α : Type} : Except EnvErr α → Option EnvErr
  | .error e => some e
  | .ok _ => none

/-- Lines 301-318: network policy, cluster service (whose returned
`ClusterIP` feeds later steps, all of which are environment-modelled),
server configs, headless service + server StatefulSet. -/
def tailStepsA (env : ReconcileEnv) : List (Ev × Option EnvErr) :=
  [(Ev.ensureNetworkPolicy, env.ensureNetworkPolicy),
   (Ev.ensureClusterService, exceptToErr env.ensureClusterService),
   (Ev.createConfigs, env.createClusterConfigs),
   (Ev.ensureServerWorkload, env.ensureServer)]

/-- Lines 324-336: ingress, bootstrap secret, kubeconfig secret, role
bindings. -/
def tailStepsB (env : ReconcileEnv) : List (Ev × Option EnvErr) :=
  [(Ev.ensureIngress, env.ensureIngress),
   (Ev.ensureBootstrapSecret, env.ensureBootstrapSecret),
   (Ev.ensureKubeconfigSecret, env.ensureKubeconfigSecret),
   (Ev.bindRoles, env.bindClusterRoles)]

/-- The final `EnsureResources` call of either agent variant. -/
def agentEnsureResources (env : ReconcileEnv) (s : RecSt) : RecM RecSt :=
  let s' : RecSt := { s with evs := s.evs ++ [Ev.ensureAgentResources] }
  match env.ensureAgentResources with
  | some e => .error (s', e.toGoErr)
  | none => .ok s'

/-- The port-allocation block of the shared variant (`cluster.go` lines
682-698): allocate and record the kubelet port, then allocate and record the
webhook port; a failure returns immediately, leaving whatever was already
recorded. -/
def allocatePorts (env : ReconcileEnv) (s0 : RecSt) : RecM RecSt :=
  match env.allocateKubeletPort with
  | .error e => .error ({ s0 with evs := s0.evs ++ [Ev.allocKubeletPort] }, e.toGoErr)
  | .ok kubeletPort =>
    let s1 : RecSt :=
      { c := { s0.c with status := { s0.c.status with kubeletPort := kubeletPort } }
        evs := s0.evs ++ [Ev.allocKubeletPort] }
    match env.allocateWebhookPort with
    | .error e => .error ({ s1 with evs := s1.evs ++ [Ev.allocWebhookPort] }, e.toGoErr)
    | .ok webhookPort =>
      .ok { c := { s1.c with status := { s1.c.status with webhookPort := webhookPort } }
            evs := s1.evs ++ [Ev.allocWebhookPort] }

/-- Continue to `EnsureResources` after the port-allocation block, unless it
failed. -/
def afterPorts (env : ReconcileEnv) (r : RecM RecSt) : RecM RecSt :=
  match r with
  | .error x => .error x
  | .ok s => agentEnsureResources env s

/-- Model of `ensureAgent` (`cluster.go` lines 671-704).  Virtual mode needs no
ports.  Otherwise, with host-node mirroring enabled, allocate the kubelet
port and record it in status, then allocate the webhook port and record it;
without mirroring the fixed defaults 10250/9443 are used and status is not
touched.  Finally the variant's `EnsureResources` runs. -/
def ensureAgentE (env : ReconcileEnv) (s0 : RecSt) : RecM RecSt :=
  if s0.c.spec.mode = VirtualNodeMode then
    agentEnsureResources env s0
  else
    afterPorts env (if s0.c.spec.mirrorHostNodes then allocatePorts env s0 else .ok s0)

/-- The stages of `reconcile` between validation and the agent step. -/
def preAgentRest (env : ReconcileEnv) (s : RecSt) : RecM RecSt := do
  let s ← stageVersion env s
  let s ← stageToken env s
  let s ← stageCIDR env s
  runEnsureSteps s (tailStepsA env)

/-- The stages of `reconcile` after the policy stage. -/
def reconcileRest (env : ReconcileEnv) (s : RecSt) : RecM RecSt := do
  let s ← preAgentRest env s
  let s ← ensureAgentE env s
  runEnsureSteps s (tailStepsB env)

def reconcileE (env : ReconcileEnv) (c0 : Cluster) : RecM RecSt := do
  let s ← stagePolicy env ⟨c0, []⟩
  reconcileRest env s

/-- Model of `reconcile` (`cluster.go` lines 226-337): the convergence procedure.
Returns the cluster as mutated by the pass (also on failure: the Go code
mutates the caller's object in place), the error, and the event trace. -/
def reconcile (env : ReconcileEnv) (c0 : Cluster) :
    Cluster × Option GoErr × List Ev :=
  match reconcileE env c0 with
  | .ok s => (s.c, none, s.evs)
  | .error (s, e) => (s.c, some e, s.evs)

/-- Modelled from the spec: `updateStatus` (called by `reconcileCluster`,
defined outside `src/`) records the outcome of the pass in the engine-owned
condition/phase fields: on failure the `Ready` condition turns false with
the failure reason, on success the phase advances to `Running` with a true
`Ready` condition.  Per the spec's data model it only maintains the phase
and conditions; ports, CIDRs, host version and policy name are written by
`reconcile` itself. -/
def updateStatus (st : ClusterStatus) (err : Option GoErr) : ClusterStatus :=
  match err with
  | some e =>
    let reason :=
      match e with
      | .validation _ => "ValidationFailed"
      | .serverNotReady => ReasonProvisioning
      | _ => "ReconcileError"
    { st with conditions :=
        (setStatusCondition st.conditions
          ⟨ConditionReady, ConditionFalse, reason, "cluster reconcile failed"⟩) }
  | none =>
    { st with
        phase := "Running"
        conditions :=
          (setStatusCondition st.conditions
            ⟨ConditionReady, ConditionTrue, "Provisioned", "cluster is ready"⟩) }

/-- Model of `reconcileCluster` (`cluster.go` lines 219-224): run `reconcile`, then
fold the outcome into the status via `updateStatus`, and propagate the
error. -/
def reconcileCluster (env : ReconcileEnv) (c : Cluster) :
    Cluster × Option GoErr × List Ev :=
  let r := reconcile env c
  ({ r.1 with status := updateStatus r.1.status r.2.1 }, r.2.1, r.2.2)

/-! ## The reconciliation engine `Reconcile` (`cluster.go` lines 147-217) -/

/-- The `reconcile.Result` returned to the queue: immediate requeue flag and
delayed-requeue interval (seconds; 0 = none). -/
structure RResult where
  requeue : Bool := false
  requeueAfterSec : Nat := 0
deriving DecidableEq, Repr

/-- Persisted writes and major branches the engine performs, in order. -/
inductive Act where
  | statusUpdate (st : ClusterStatus)
  | clusterUpdate (c : Cluster)
  | converge
  | finalize
deriving DecidableEq, Repr

structure EngineOutcome where
  result : RResult
  err : Option GoErr
  acts : List Act
deriving DecidableEq, Repr

/-- Results of the engine's own external calls: the three writes of one pass
(initial status write, finalizer add, post-convergence status write, spec
write), the finalization outcome, and the environment of the convergence
procedure. -/
structure EngineEnv where
  recEnv : ReconcileEnv
  statusUpdate1 : Option EnvErr
  addFinalizerUpdate : Option EnvErr
  statusUpdate2 : Option EnvErr
  specUpdate : Option EnvErr
  finalizeErr : Option EnvErr

/-- Lines 164-171: the initial status written for a Cluster whose phase is
unset or `Unknown`: phase `Provisioning` and a false `Ready` condition. -/
def initializedStatus (st : ClusterStatus) : ClusterStatus :=
  { st with
      phase := ClusterProvisioning
      conditions := setStatusCondition st.conditions
        ⟨ConditionReady, ConditionFalse, ReasonProvisioning, "Cluster is being provisioned"⟩ }

/-- Lines 199-216: classify the convergence error (the `ErrServerNotReady`
kind yields a 10-second delayed retry with no error surfaced; any other
error is returned), then on success persist the spec when convergence
changed it. -/
def classifyOutcome (env : EngineEnv) (c c1 : Cluster) (recErr : Option GoErr)
    (acts : List Act) : EngineOutcome :=
  match recErr with
  | some e =>
    if e = GoErr.serverNotReady then
      { result := { requeueAfterSec := 10 }, err := none, acts := acts }
    else
      { result := {}, err := some e, acts := acts }
  | none =>
    if c1.spec = c.spec then { result := {}, err := none, acts := acts }
    else
      match env.specUpdate with
      | some e => { result := {}, err := some e.toGoErr, acts := acts ++ [Act.clusterUpdate c1] }
      | none => { result := {}, err := none, acts := acts ++ [Act.clusterUpdate c1] }

/-- Lines 193-197: the attempted status write, then classification; a failed
status write returns its error immediately. -/
def afterStatusWrite (env : EngineEnv) (c c1 : Cluster) (recErr : Option GoErr)
    (acts : List Act) : EngineOutcome :=
  match env.statusUpdate2 with
  | some e => { result := {}, err := some e.toGoErr, acts := acts }
  | none => classifyOutcome env c c1 recErr acts

/-- Lines 189-216: snapshot the object (`orig := cluster.DeepCopy()`), run
`reconcileCluster`, write the status sub-resource exactly when the status
changed structurally (whether or not convergence failed), then classify. -/
def convergePass (env : EngineEnv) (c : Cluster) : EngineOutcome :=
  if (reconcileCluster env.recEnv c).1.status = c.status then
    classifyOutcome env c (reconcileCluster env.recEnv c).1
      (reconcileCluster env.recEnv c).2.1 [Act.converge]
  else
    afterStatusWrite env c (reconcileCluster env.recEnv c).1
      (reconcileCluster env.recEnv c).2.1
      [Act.converge, Act.statusUpdate (reconcileCluster env.recEnv c).1.status]

/-- Lines 164-178: write the initial status and request immediate
re-processing. -/
def initialWrite (env : EngineEnv) (c : Cluster) : EngineOutcome :=
  match env.statusUpdate1 with
  | some e =>
    { result := {}, err := some e.toGoErr
      acts := [Act.statusUpdate (initializedStatus c.status)] }
  | none =>
    { result := { requeue := true }, err := none
      acts := [Act.statusUpdate (initializedStatus c.status)] }

/-- Model of `controllerutil.AddFinalizer`. -/
def addFinalizerTo (c : Cluster) : Cluster :=
  { c with finalizers := c.finalizers ++ [clusterFinalizerName] }

/-- Lines 181-187: persist the added finalizer and request immediate
re-processing. -/
def finalizerWrite (env : EngineEnv) (c : Cluster) : EngineOutcome :=
  match env.addFinalizerUpdate with
  | some e => { result := {}, err := some e.toGoErr, acts := [Act.clusterUpdate (addFinalizerTo c)] }
  | none => { result := { requeue := true }, err := none, acts := [Act.clusterUpdate (addFinalizerTo c)] }

/-- Model of `Reconcile` (`cluster.go` lines 147-217) for a Cluster that was
successfully loaded: finalize when a deletion timestamp is present
(`finalizeCluster` is environment-modelled); otherwise initialize the
status phase and requeue; otherwise add the finalizer and requeue;
otherwise run the convergence pass. -/
def ReconcileTop (env : EngineEnv) (c : Cluster) : EngineOutcome :=
  if c.deletionTimestampZero = false then
    { result := {}, err := env.finalizeErr.map EnvErr.toGoErr, acts := [Act.finalize] }
  else if c.status.phase = "" ∨ c.status.phase = ClusterUnknown then
    initialWrite env c
  else if clusterFinalizerName ∉ c.finalizers then
    finalizerWrite env c
  else
    convergePass env c

/-! ## Helper lemmas: per-stage characterizations -/

/-- The state carried by a stage outcome, successful or not. -/
def stOf : RecM RecSt → RecSt
  | .ok s => s
  | .error x => x.1

/-- The outcome's trace extends the input trace only with events from `E`. -/
def EvsExt (E : List Ev) (s : RecSt) (m : RecM RecSt) : Prop :=
  ∃ l, (stOf m).evs = s.evs ++ l ∧ ∀ e ∈ l, e ∈ E

/-- Every error the computation can produce is an environment error. -/
def ErrEnv (m : RecM RecSt) : Prop :=
  ∀ x, m = .error x → ∃ ee : EnvErr, x.2 = ee.toGoErr

/-- Events a pass can record after the policy stage. -/
def restEvents : List Ev :=
  [Ev.serverVersionQuery, Ev.tokenFetch, Ev.setCIDRs, Ev.cidrLookupFailingService,
   Ev.cidrLookupPodList, Ev.ensureNetworkPolicy, Ev.ensureClusterService,
   Ev.createConfigs, Ev.ensureServerWorkload, Ev.allocKubeletPort,
   Ev.allocWebhookPort, Ev.ensureAgentResources, Ev.ensureIngress,
   Ev.ensureBootstrapSecret, Ev.ensureKubeconfigSecret, Ev.bindRoles]

/-- Events the pre-agent stages can record. -/
def preAgentEvents : List Ev :=
  [Ev.serverVersionQuery, Ev.tokenFetch, Ev.setCIDRs, Ev.cidrLookupFailingService,
   Ev.cidrLookupPodList, Ev.ensureNetworkPolicy, Ev.ensureClusterService,
   Ev.createConfigs, Ev.ensureServerWorkload]

/-- The first strategy found no range hint: either the deliberately failing
creation did not fail, or its message does not contain the hint marker. -/
def hintAbsent (env : ReconcileEnv) : Prop :=
  env.failingServiceCreateErr = none ∨
  ∃ msg, env.failingServiceCreateErr = some msg ∧
    ¬ 1 < (stringsSplit msg rangeHintMarker).length

/-! ## Concrete fixtures for witnesses and counterexamples -/

/-- An environment in which every external call succeeds; the failing
service creation reports a message with a valid range hint. -/
def benignEnv : ReconcileEnv where
  getNamespace := .ok ⟨none⟩
  policyResult := .ok ⟨"policy1", "virtual"⟩
  serverVersion := .ok "v1.30.2+rke2r1"
  token := .ok "token"
  failingServiceCreateErr := some
    "the provided IP (1.1.1.1) is not in the valid range. The range of valid IPs is 10.96.0.0/12"
  listPods := .ok []
  allocateKubeletPort := .ok 50001
  allocateWebhookPort := .ok 50002
  ensureNetworkPolicy := none
  ensureClusterService := .ok "10.43.0.1"
  createClusterConfigs := none
  ensureServer := none
  ensureAgentResources := none
  ensureIngress := none
  ensureBootstrapSecret := none
  ensureKubeconfigSecret := none
  bindClusterRoles := none

def benignEngineEnv : EngineEnv where
  recEnv := benignEnv
  statusUpdate1 := none
  addFinalizerUpdate := none
  statusUpdate2 := none
  specUpdate := none
  finalizeErr := none

def baseSpec : ClusterSpec where
  mode := "shared"
  version := "v1.30.2"
  clusterCIDR := "10.42.0.0/16"
  serviceCIDR := "10.43.0.0/16"
  mirrorHostNodes := false

def baseStatus : ClusterStatus where
  phase := "Provisioning"
  conditions := []
  hostVersion := ""
  clusterCIDR := ""
  serviceCIDR := ""
  policyName := ""
  kubeletPort := 0
  webhookPort := 0

def baseCluster : Cluster where
  name := "democluster"
  nsName := "default"
  deletionTimestampZero := true
  finalizers := [clusterFinalizerName]
  spec := baseSpec
  status := baseStatus

/-- A shared-mode Cluster with host-node mirroring and no ports recorded. -/
def mirrorCluster : Cluster :=
  { baseCluster with spec := { baseSpec with mirrorHostNodes := true } }

/-- An engine environment in which only the webhook-port allocation fails. -/
def webhookFailEnv : EngineEnv :=
  { benignEngineEnv with
      recEnv := { benignEnv with allocateWebhookPort := .error (.ext "webhook ports exhausted") } }

/-- A Cluster whose recorded status CIDRs differ from its spec CIDRs. -/
def cidrCluster : Cluster :=
  { baseCluster with
      spec := { baseSpec with clusterCIDR := "192.168.0.0/16", serviceCIDR := "10.99.0.0/16" }
      status := { baseStatus with clusterCIDR := "10.42.0.0/16", serviceCIDR := "10.43.0.0/16" } }

/-- A shared-mode Cluster with no CIDRs anywhere. -/
def sharedNoCidrCluster : Cluster :=
  { baseCluster with spec := { baseSpec with clusterCIDR := "", serviceCIDR := "" } }

/-- A Cluster that has not yet passed through the initial status write. -/
def freshCluster : Cluster :=
  { baseCluster with
      status := { baseStatus with phase := "" }
      finalizers := [] }

/-- Both discovery strategies fail cleanly: no range hint in the creation
error, and no kube-apiserver pods. -/
def noHintEnv : ReconcileEnv :=
  { benignEnv with
      failingServiceCreateErr := some "services fail is forbidden", listPods := .ok [] }

/-- An engine environment whose bootstrap-secret step fails with the
`ErrServerNotReady` kind. -/
def snrEngineEnv : EngineEnv :=
  { benignEngineEnv with
      recEnv := { benignEnv with ensureBootstrapSecret := some .serverNotReady } }

/-- A shared-mode Cluster with no spec version and no recorded host
version. -/
def versionCluster : Cluster :=
  { baseCluster with spec := { baseSpec with version := "" } }

/-- An environment whose namespace carries the policy label `pol1`, bound
to a policy that only allows virtual mode. -/
def polEnv : ReconcileEnv :=
  { benignEnv with
      getNamespace := .ok ⟨some "pol1"⟩
      policyResult := .ok ⟨"pol1", "virtual"⟩ }

/-- A Cluster carrying the reserved name, in a namespace with no policy
label. -/
def sysCluster : Cluster := { baseCluster with name := "system" }

def hintBadMsg : String :=
  "cannot allocate. The range of valid IPs is not-a-cidr obviously"

/-- An environment whose failing-service error contains the range hint, but
the hinted value does not parse as a CIDR. -/
def hintBadEnv : ReconcileEnv :=
  { benignEnv with failingServiceCreateErr := some hintBadMsg }

/-- An environment with no hint in the creation error and a kube-apiserver
pod whose first container carries the service-range flag with a
non-canonical value. -/
def podFlagEnv : ReconcileEnv :=
  { benignEnv with
      failingServiceCreateErr := some "no range in this message"
      listPods := .ok [⟨["--service-cluster-ip-range=10.96.3.8/12"]⟩] }

theorem stOf_ok (s : RecSt) : stOf (.ok s) = s := rfl

theorem stOf_error (x : RecSt × GoErr) : stOf (.error x) = x.1 := rfl

theorem lookup_evs_cases (env : ReconcileEnv) :
    (lookupServiceCIDR env).2.2 = [Ev.cidrLookupFailingService] ∨
    (lookupServiceCIDR env).2.2 = [Ev.cidrLookupFailingService, Ev.cidrLookupPodList] := by
  unfold lookupServiceCIDR lookupFromAPIServerPod
  rcases env.failingServiceCreateErr with _ | msg <;>
    rcases env.listPods with pods | _ | e <;>
    (try rcases pods with _ | ⟨p, rest⟩) <;>
    simp only [] <;>
    (try split) <;>
    (try split) <;>
    simp

theorem lookup_evs_sub (env : ReconcileEnv) :
    ∀ e ∈ (lookupServiceCIDR env).2.2,
      e = Ev.cidrLookupFailingService ∨ e = Ev.cidrLookupPodList := by
  intro e he
  rcases lookup_evs_cases env with h | h <;> rw [h] at he <;> simp_all

theorem stagePolicy_c (env : ReconcileEnv) (s : RecSt) :
    (stOf (stagePolicy env s)).c = s.c ∨
    ∃ p, (stOf (stagePolicy env s)).c =
      { s.c with status := { s.c.status with policyName := p } } := by
  obtain ⟨gns, pr, _, _, _, _, _, _, _, _, _, _, _, _, _, _, _⟩ := env
  unfold stagePolicy
  dsimp only
  cases gns with
  | error e => left; rfl
  | ok nsi =>
    dsimp only
    split
    · cases pr with
      | error e => right; exact ⟨_, rfl⟩
      | ok pol =>
        dsimp only
        split <;> (right; exact ⟨_, rfl⟩)
    · right; exact ⟨_, rfl⟩

theorem stagePolicy_evs (env : ReconcileEnv) (s : RecSt) :
    ∃ l, (stOf (stagePolicy env s)).evs = s.evs ++ l ∧
      ∀ ev ∈ l, ev = Ev.getNamespace ∨ ev = Ev.getPolicy ∨ ev = Ev.validateCheck := by
  obtain ⟨gns, pr, _, _, _, _, _, _, _, _, _, _, _, _, _, _, _⟩ := env
  unfold stagePolicy
  dsimp only
  cases gns with
  | error e => exact ⟨[Ev.getNamespace], rfl, by simp⟩
  | ok nsi =>
    dsimp only
    split
    · cases pr with
      | error e =>
        refine ⟨[Ev.getNamespace, Ev.getPolicy], ?_, by simp⟩
        simp [stOf]
      | ok pol =>
        dsimp only
        split <;>
          (refine ⟨[Ev.getNamespace, Ev.getPolicy, Ev.validateCheck], ?_, by simp⟩ ;
           simp [stOf])
    · exact ⟨[Ev.getNamespace], by simp [stOf], by simp⟩

theorem stagePolicy_err (env : ReconcileEnv) (s : RecSt) (x : RecSt × GoErr)
    (h : stagePolicy env s = .error x) :
    (∃ ee : EnvErr, x.2 = ee.toGoErr) ∨ ∃ m, x.2 = GoErr.validation m := by
  obtain ⟨gns, pr, _, _, _, _, _, _, _, _, _, _, _, _, _, _, _⟩ := env
  unfold stagePolicy at h
  dsimp only at h
  cases gns with
  | error e =>
    cases h
    exact Or.inl ⟨e, rfl⟩
  | ok nsi =>
    dsimp only at h
    split at h
    · cases pr with
      | error e =>
        cases h
        exact Or.inl ⟨e, rfl⟩
      | ok pol =>
        dsimp only at h
        split at h
        · rename_i e' hval
          cases h
          unfold validate at hval
          split at hval
          · cases hval; exact Or.inr ⟨_, rfl⟩
          · split at hval
            · cases hval; exact Or.inr ⟨_, rfl⟩
            · cases hval
        · cases h
    · cases h

theorem stagePolicy_no_policy (env : ReconcileEnv) (s : RecSt) (nsi : NsInfo)
    (hns : env.getNamespace = .ok nsi)
    (hl : nsi.policyLabel = none ∨ nsi.policyLabel = some "") :
    stagePolicy env s =
      .ok ⟨{ s.c with status := { s.c.status with policyName := "" } },
           s.evs ++ [Ev.getNamespace]⟩ := by
  obtain ⟨gns, pr, _, _, _, _, _, _, _, _, _, _, _, _, _, _, _⟩ := env
  unfold stagePolicy
  dsimp only at hns ⊢
  subst hns
  rcases hl with h | h <;> simp [h]

theorem stagePolicy_validate_fail (env : ReconcileEnv) (s : RecSt) (p : String)
    (pol : PolicyInfo)
    (hns : env.getNamespace = .ok ⟨some p⟩) (hp : p ≠ "")
    (hpol : env.policyResult = .ok pol)
    (hbad : s.c.name = ClusterInvalidName ∨ s.c.spec.mode ≠ pol.allowedMode) :
    ∃ m, stagePolicy env s =
      .error (⟨{ s.c with status := { s.c.status with policyName := p } },
               s.evs ++ [Ev.getNamespace, Ev.getPolicy, Ev.validateCheck]⟩,
              GoErr.validation m) := by
  obtain ⟨gns, pr, _, _, _, _, _, _, _, _, _, _, _, _, _, _, _⟩ := env
  unfold stagePolicy
  dsimp only at hns hpol ⊢
  subst hns
  subst hpol
  dsimp only
  rw [if_pos (by simp [hp])]
  unfold validate
  rcases hbad with h | h
  · rw [if_pos h]
    exact ⟨"invalid cluster name " ++ s.c.name, by simp⟩
  · by_cases hname : s.c.name = ClusterInvalidName
    · rw [if_pos hname]
      exact ⟨"invalid cluster name " ++ s.c.name, by simp⟩
    · rw [if_neg hname, if_pos h]
      exact ⟨"mode " ++ s.c.spec.mode ++ " is not allowed by the policy " ++ pol.name, by simp⟩

theorem stageVersion_c (env : ReconcileEnv) (s : RecSt) :
    (stOf (stageVersion env s)).c = s.c ∨
    ∃ hv, (stOf (stageVersion env s)).c =
      { s.c with status := { s.c.status with hostVersion := hv } } := by
  obtain ⟨_, _, sv, _, _, _, _, _, _, _, _, _, _, _, _, _, _⟩ := env
  unfold stageVersion
  dsimp only
  split
  · cases sv with
    | error e => left; rfl
    | ok gv => right; exact ⟨_, rfl⟩
  · left; rfl

theorem stageVersion_evs (env : ReconcileEnv) (s : RecSt) :
    ∃ l, (stOf (stageVersion env s)).evs = s.evs ++ l ∧
      ∀ ev ∈ l, ev = Ev.serverVersionQuery := by
  obtain ⟨_, _, sv, _, _, _, _, _, _, _, _, _, _, _, _, _, _⟩ := env
  unfold stageVersion
  dsimp only
  split
  · cases sv with
    | error e => exact ⟨[Ev.serverVersionQuery], rfl, by simp⟩
    | ok gv => exact ⟨[Ev.serverVersionQuery], rfl, by simp⟩
  · exact ⟨[], by simp [stOf], by simp⟩

theorem stageVersion_err (env : ReconcileEnv) (s : RecSt) (x : RecSt × GoErr)
    (h : stageVersion env s = .error x) : ∃ ee : EnvErr, x.2 = ee.toGoErr := by
  obtain ⟨_, _, sv, _, _, _, _, _, _, _, _, _, _, _, _, _, _⟩ := env
  unfold stageVersion at h
  dsimp only at h
  split at h
  · cases sv with
    | error e => cases h; exact ⟨e, rfl⟩
    | ok gv => cases h
  · cases h

theorem stageVersion_keep (env : ReconcileEnv) (s : RecSt)
    (h : s.c.status.hostVersion ≠ "") : stageVersion env s = .ok s := by
  unfold stageVersion
  rw [if_neg]
  rintro ⟨_, h2⟩
  exact h h2

theorem stageVersion_set (env : ReconcileEnv) (s : RecSt) (gv : String)
    (hv : s.c.spec.version = "") (hh : s.c.status.hostVersion = "")
    (hgv : env.serverVersion = .ok gv) :
    stageVersion env s =
      .ok ⟨{ s.c with status := { s.c.status with
              hostVersion := ((stringsSplit gv "+").headD "") ++ "-k3s1" } },
           s.evs ++ [Ev.serverVersionQuery]⟩ := by
  obtain ⟨_, _, sv, _, _, _, _, _, _, _, _, _, _, _, _, _, _⟩ := env
  unfold stageVersion
  dsimp only at hgv ⊢
  subst hgv
  rw [if_pos ⟨hv, hh⟩]

theorem stageToken_c (env : ReconcileEnv) (s : RecSt) :
    (stOf (stageToken env s)).c = s.c := by
  obtain ⟨_, _, _, tk, _, _, _, _, _, _, _, _, _, _, _, _, _⟩ := env
  unfold stageToken
  dsimp only
  cases tk <;> rfl

theorem stageToken_evs (env : ReconcileEnv) (s : RecSt) :
    (stOf (stageToken env s)).evs = s.evs ++ [Ev.tokenFetch] := by
  obtain ⟨_, _, _, tk, _, _, _, _, _, _, _, _, _, _, _, _, _⟩ := env
  unfold stageToken
  dsimp only
  cases tk <;> rfl

theorem stageToken_err (env : ReconcileEnv) (s : RecSt) (x : RecSt × GoErr)
    (h : stageToken env s = .error x) : ∃ ee : EnvErr, x.2 = ee.toGoErr := by
  obtain ⟨_, _, _, tk, _, _, _, _, _, _, _, _, _, _, _, _, _⟩ := env
  unfold stageToken at h
  dsimp only at h
  cases tk with
  | error e => cases h; exact ⟨e, rfl⟩
  | ok t => cases h

theorem stageCIDR_eq (env : ReconcileEnv) (s : RecSt) :
    stageCIDR env s =
      .ok ⟨{ s.c with status := { s.c.status with
              clusterCIDR := clusterCIDROf s.c.spec
              serviceCIDR := serviceCIDROf env s.c.spec } },
           (s.evs ++ [Ev.setCIDRs])
             ++ (if serviceLookupRuns s.c.spec then (lookupServiceCIDR env).2.2 else [])⟩ :=
  rfl

theorem runEnsureSteps_c (l : List (Ev × Option EnvErr)) :
    ∀ s, (stOf (runEnsureSteps s l)).c = s.c := by
  induction l with
  | nil => intro s; rfl
  | cons p rest ih =>
    intro s
    obtain ⟨ev, r⟩ := p
    unfold runEnsureSteps
    dsimp only
    cases r with
    | some e => rfl
    | none => exact ih _

theorem runEnsureSteps_evs (l : List (Ev × Option EnvErr)) :
    ∀ s, ∃ l2, (stOf (runEnsureSteps s l)).evs = s.evs ++ l2 ∧
      ∀ e ∈ l2, e ∈ l.map Prod.fst := by
  induction l with
  | nil => intro s; exact ⟨[], by simp [runEnsureSteps, stOf], by simp⟩
  | cons p rest ih =>
    intro s
    obtain ⟨ev, r⟩ := p
    unfold runEnsureSteps
    dsimp only
    cases r with
    | some e => exact ⟨[ev], rfl, by simp⟩
    | none =>
      obtain ⟨l2, h1, h2⟩ := ih ⟨s.c, s.evs ++ [ev]⟩
      refine ⟨ev :: l2, ?_, ?_⟩
      · rw [h1]; simp
      · intro e he
        rcases List.mem_cons.mp he with he | he
        · simp [he]
        · simpa using Or.inr (h2 e he)

theorem runEnsureSteps_err (l : List (Ev × Option EnvErr)) :
    ∀ s x, runEnsureSteps s l = .error x → ∃ ee : EnvErr, x.2 = ee.toGoErr := by
  induction l with
  | nil => intro s x h; cases h
  | cons p rest ih =>
    intro s x h
    obtain ⟨ev, r⟩ := p
    unfold runEnsureSteps at h
    dsimp only at h
    cases r with
    | some e => cases h; exact ⟨e, rfl⟩
    | none => exact ih _ _ h

theorem agentEnsureResources_c (env : ReconcileEnv) (s : RecSt) :
    (stOf (agentEnsureResources env s)).c = s.c := by
  obtain ⟨_, _, _, _, _, _, _, _, _, _, _, _, ear, _, _, _, _⟩ := env
  unfold agentEnsureResources
  dsimp only
  cases ear <;> rfl

theorem agentEnsureResources_evs (env : ReconcileEnv) (s : RecSt) :
    (stOf (agentEnsureResources env s)).evs = s.evs ++ [Ev.ensureAgentResources] := by
  obtain ⟨_, _, _, _, _, _, _, _, _, _, _, _, ear, _, _, _, _⟩ := env
  unfold agentEnsureResources
  dsimp only
  cases ear <;> rfl

theorem agentEnsureResources_err (env : ReconcileEnv) (s : RecSt) (x : RecSt × GoErr)
    (h : agentEnsureResources env s = .error x) : ∃ ee : EnvErr, x.2 = ee.toGoErr := by
  obtain ⟨_, _, _, _, _, _, _, _, _, _, _, _, ear, _, _, _, _⟩ := env
  unfold agentEnsureResources at h
  dsimp only at h
  cases ear with
  | some e => cases h; exact ⟨e, rfl⟩
  | none => cases h

theorem allocatePorts_c (env : ReconcileEnv) (s : RecSt) :
    (stOf (allocatePorts env s)).c = s.c ∨
    (∃ p, (stOf (allocatePorts env s)).c =
      { s.c with status := { s.c.status with kubeletPort := p } }) ∨
    (∃ p q, (stOf (allocatePorts env s)).c =
      { s.c with status := { s.c.status with kubeletPort := p, webhookPort := q } }) := by
  obtain ⟨_, _, _, _, _, _, akp, awp, _, _, _, _, _, _, _, _, _⟩ := env
  unfold allocatePorts
  dsimp only
  cases akp with
  | error e => left; rfl
  | ok p =>
    cases awp with
    | error e => right; left; exact ⟨p, rfl⟩
    | ok q => right; right; exact ⟨p, q, rfl⟩

theorem allocatePorts_evs (env : ReconcileEnv) (s : RecSt) :
    ∃ l, (stOf (allocatePorts env s)).evs = s.evs ++ l ∧
      ∀ e ∈ l, e = Ev.allocKubeletPort ∨ e = Ev.allocWebhookPort := by
  obtain ⟨_, _, _, _, _, _, akp, awp, _, _, _, _, _, _, _, _, _⟩ := env
  unfold allocatePorts
  dsimp only
  cases akp with
  | error e => exact ⟨[Ev.allocKubeletPort], rfl, by simp⟩
  | ok p =>
    cases awp with
    | error e =>
      refine ⟨[Ev.allocKubeletPort, Ev.allocWebhookPort], ?_, by simp⟩
      simp [stOf]
    | ok q =>
      refine ⟨[Ev.allocKubeletPort, Ev.allocWebhookPort], ?_, by simp⟩
      simp [stOf]

theorem allocatePorts_err (env : ReconcileEnv) (s : RecSt) (x : RecSt × GoErr)
    (h : allocatePorts env s = .error x) : ∃ ee : EnvErr, x.2 = ee.toGoErr := by
  obtain ⟨_, _, _, _, _, _, akp, awp, _, _, _, _, _, _, _, _, _⟩ := env
  unfold allocatePorts at h
  dsimp only at h
  cases akp with
  | error e => cases h; exact ⟨e, rfl⟩
  | ok p =>
    cases awp with
    | error e => cases h; exact ⟨e, rfl⟩
    | ok q => cases h

theorem allocatePorts_kubeletFail (env : ReconcileEnv) (s : RecSt) (e : EnvErr)
    (hk : env.allocateKubeletPort = .error e) :
    allocatePorts env s = .error (⟨s.c, s.evs ++ [Ev.allocKubeletPort]⟩, e.toGoErr) := by
  obtain ⟨_, _, _, _, _, _, akp, awp, _, _, _, _, _, _, _, _, _⟩ := env
  unfold allocatePorts
  dsimp only at hk ⊢
  subst hk
  rfl

theorem allocatePorts_webhookFail (env : ReconcileEnv) (s : RecSt) (p : Nat) (e : EnvErr)
    (hk : env.allocateKubeletPort = .ok p)
    (hw : env.allocateWebhookPort = .error e) :
    allocatePorts env s =
      .error (⟨{ s.c with status := { s.c.status with kubeletPort := p } },
               s.evs ++ [Ev.allocKubeletPort, Ev.allocWebhookPort]⟩, e.toGoErr) := by
  obtain ⟨_, _, _, _, _, _, akp, awp, _, _, _, _, _, _, _, _, _⟩ := env
  unfold allocatePorts
  dsimp only at hk hw ⊢
  subst hk
  subst hw
  simp

theorem allocatePorts_ok (env : ReconcileEnv) (s : RecSt) (p q : Nat)
    (hk : env.allocateKubeletPort = .ok p)
    (hw : env.allocateWebhookPort = .ok q) :
    allocatePorts env s =
      .ok ⟨{ s.c with status := { s.c.status with kubeletPort := p, webhookPort := q } },
           s.evs ++ [Ev.allocKubeletPort, Ev.allocWebhookPort]⟩ := by
  obtain ⟨_, _, _, _, _, _, akp, awp, _, _, _, _, _, _, _, _, _⟩ := env
  unfold allocatePorts
  dsimp only at hk hw ⊢
  subst hk
  subst hw
  simp

theorem afterPorts_error (env : ReconcileEnv) (x : RecSt × GoErr) :
    afterPorts env (.error x) = .error x := rfl

theorem afterPorts_ok (env : ReconcileEnv) (s : RecSt) :
    afterPorts env (.ok s) = agentEnsureResources env s := rfl

theorem ensureAgentE_c (env : ReconcileEnv) (s : RecSt) :
    ∃ kp wp, (stOf (ensureAgentE env s)).c =
      { s.c with status := { s.c.status with kubeletPort := kp, webhookPort := wp } } := by
  unfold ensureAgentE
  split
  · exact ⟨s.c.status.kubeletPort, s.c.status.webhookPort, agentEnsureResources_c env s⟩
  · by_cases hm : s.c.spec.mirrorHostNodes = true
    · rw [if_pos hm]
      cases hap : allocatePorts env s with
      | error x =>
        have hc := allocatePorts_c env s
        rw [hap] at hc
        rcases hc with hc | ⟨p, hc⟩ | ⟨p, q, hc⟩
        · exact ⟨s.c.status.kubeletPort, s.c.status.webhookPort, hc⟩
        · exact ⟨p, s.c.status.webhookPort, hc⟩
        · exact ⟨p, q, hc⟩
      | ok s1 =>
        have hc := allocatePorts_c env s
        rw [hap] at hc
        have h2 := agentEnsureResources_c env s1
        rcases hc with hc | ⟨p, hc⟩ | ⟨p, q, hc⟩
        · exact ⟨s.c.status.kubeletPort, s.c.status.webhookPort, h2.trans hc⟩
        · exact ⟨p, s.c.status.webhookPort, h2.trans hc⟩
        · exact ⟨p, q, h2.trans hc⟩
    · rw [if_neg hm]
      exact ⟨s.c.status.kubeletPort, s.c.status.webhookPort, agentEnsureResources_c env s⟩

theorem ensureAgentE_evs (env : ReconcileEnv) (s : RecSt) :
    ∃ l, (stOf (ensureAgentE env s)).evs = s.evs ++ l ∧
      ∀ e ∈ l, e = Ev.allocKubeletPort ∨ e = Ev.allocWebhookPort ∨
        e = Ev.ensureAgentResources := by
  unfold ensureAgentE
  split
  · refine ⟨[Ev.ensureAgentResources], ?_, by simp⟩
    rw [agentEnsureResources_evs]
  · by_cases hm : s.c.spec.mirrorHostNodes = true
    · rw [if_pos hm]
      cases hap : allocatePorts env s with
      | error x =>
        obtain ⟨l, h1, h2⟩ := allocatePorts_evs env s
        rw [hap] at h1
        refine ⟨l, h1, ?_⟩
        intro e he
        rcases h2 e he with h | h
        · exact Or.inl h
        · exact Or.inr (Or.inl h)
      | ok s1 =>
        obtain ⟨l, h1, h2⟩ := allocatePorts_evs env s
        rw [hap] at h1
        simp only [stOf] at h1
        refine ⟨l ++ [Ev.ensureAgentResources], ?_, ?_⟩
        · rw [afterPorts_ok, agentEnsureResources_evs, h1]
          simp
        · intro e he
          rcases List.mem_append.mp he with h | h
          · rcases h2 e h with h | h
            · exact Or.inl h
            · exact Or.inr (Or.inl h)
          · simp at h
            exact Or.inr (Or.inr h)
    · rw [if_neg hm]
      refine ⟨[Ev.ensureAgentResources], ?_, by simp⟩
      rw [afterPorts_ok, agentEnsureResources_evs]

theorem ensureAgentE_err (env : ReconcileEnv) (s : RecSt) (x : RecSt × GoErr)
    (h : ensureAgentE env s = .error x) : ∃ ee : EnvErr, x.2 = ee.toGoErr := by
  unfold ensureAgentE at h
  split at h
  · exact agentEnsureResources_err env s x h
  · by_cases hm : s.c.spec.mirrorHostNodes = true
    · rw [if_pos hm] at h
      cases hap : allocatePorts env s with
      | error y =>
        rw [hap] at h
        have h' : Except.error (ε := RecSt × GoErr) (α := RecSt) y = .error x := h
        cases h'
        exact allocatePorts_err env s _ hap
      | ok s1 =>
        rw [hap] at h
        exact agentEnsureResources_err env s1 x h
    · rw [if_neg hm] at h
      exact agentEnsureResources_err env s x h

/-! ## Composition machinery over the stage chain -/

theorem recm_bind_ok {α β : Type} (a : α) (f : α → RecM β) :
    (Except.ok (ε := RecSt × GoErr) a >>= f) = f a := rfl

theorem recm_bind_error {α β : Type} (x : RecSt × GoErr) (f : α → RecM β) :
    ((Except.error x : RecM α) >>= f) = Except.error x := rfl

theorem evsExt_mono {E E' : List Ev} {s : RecSt} {m : RecM RecSt}
    (hEE : ∀ e ∈ E, e ∈ E') (h : EvsExt E s m) : EvsExt E' s m := by
  obtain ⟨l, h1, h2⟩ := h
  exact ⟨l, h1, fun e he => hEE e (h2 e he)⟩

theorem evsExt_bind {E : List Ev} {s : RecSt} {m : RecM RecSt} {f : RecSt → RecM RecSt}
    (h1 : EvsExt E s m) (h2 : ∀ t, EvsExt E t (f t)) : EvsExt E s (m >>= f) := by
  cases m with
  | error x =>
    rw [recm_bind_error]
    exact h1
  | ok t =>
    rw [recm_bind_ok]
    obtain ⟨l1, hl1, hs1⟩ := h1
    rw [stOf_ok] at hl1
    obtain ⟨l2, hl2, hs2⟩ := h2 t
    refine ⟨l1 ++ l2, ?_, ?_⟩
    · rw [hl2, hl1, List.append_assoc]
    · intro e he
      rcases List.mem_append.mp he with h | h
      exacts [hs1 e h, hs2 e h]

theorem errEnv_bind {m : RecM RecSt} {f : RecSt → RecM RecSt}
    (h1 : ErrEnv m) (h2 : ∀ t, ErrEnv (f t)) : ErrEnv (m >>= f) := by
  intro x h
  cases m with
  | error y =>
    rw [recm_bind_error] at h
    injection h with hh
    subst hh
    exact h1 y rfl
  | ok t =>
    rw [recm_bind_ok] at h
    exact h2 t x h

theorem stageVersion_evsExt (env : ReconcileEnv) (E : List Ev)
    (hE : Ev.serverVersionQuery ∈ E) (s : RecSt) : EvsExt E s (stageVersion env s) := by
  obtain ⟨l, h1, h2⟩ := stageVersion_evs env s
  exact ⟨l, h1, fun e he => (h2 e he) ▸ hE⟩

theorem stageToken_evsExt (env : ReconcileEnv) (E : List Ev)
    (hE : Ev.tokenFetch ∈ E) (s : RecSt) : EvsExt E s (stageToken env s) :=
  ⟨[Ev.tokenFetch], stageToken_evs env s, by intro e he; simp at he; exact he ▸ hE⟩

theorem stageCIDR_evsExt (env : ReconcileEnv) (E : List Ev)
    (h1 : Ev.setCIDRs ∈ E) (h2 : Ev.cidrLookupFailingService ∈ E)
    (h3 : Ev.cidrLookupPodList ∈ E) (s : RecSt) : EvsExt E s (stageCIDR env s) := by
  rw [stageCIDR_eq]
  refine ⟨[Ev.setCIDRs] ++
      (if serviceLookupRuns s.c.spec then (lookupServiceCIDR env).2.2 else []), ?_, ?_⟩
  · simp [stOf]
  · intro e he
    rcases List.mem_append.mp he with h | h
    · simp at h
      exact h ▸ h1
    · split at h
      · rcases lookup_evs_sub env e h with h | h
        exacts [h ▸ h2, h ▸ h3]
      · cases h

theorem runEnsureSteps_evsExt (l : List (Ev × Option EnvErr)) (E : List Ev)
    (hE : ∀ e ∈ l.map Prod.fst, e ∈ E) (s : RecSt) : EvsExt E s (runEnsureSteps s l) := by
  obtain ⟨l2, h1, h2⟩ := runEnsureSteps_evs l s
  exact ⟨l2, h1, fun e he => hE e (h2 e he)⟩

theorem ensureAgentE_evsExt (env : ReconcileEnv) (E : List Ev)
    (h1 : Ev.allocKubeletPort ∈ E) (h2 : Ev.allocWebhookPort ∈ E)
    (h3 : Ev.ensureAgentResources ∈ E) (s : RecSt) : EvsExt E s (ensureAgentE env s) := by
  obtain ⟨l, hl, hs⟩ := ensureAgentE_evs env s
  refine ⟨l, hl, fun e he => ?_⟩
  rcases hs e he with h | h | h
  exacts [h ▸ h1, h ▸ h2, h ▸ h3]

theorem tailStepsA_fst (env : ReconcileEnv) :
    (tailStepsA env).map Prod.fst =
      [Ev.ensureNetworkPolicy, Ev.ensureClusterService, Ev.createConfigs,
       Ev.ensureServerWorkload] := rfl

theorem tailStepsB_fst (env : ReconcileEnv) :
    (tailStepsB env).map Prod.fst =
      [Ev.ensureIngress, Ev.ensureBootstrapSecret, Ev.ensureKubeconfigSecret,
       Ev.bindRoles] := rfl

theorem preAgentRest_evsExt (env : ReconcileEnv) (s : RecSt) :
    EvsExt preAgentEvents s (preAgentRest env s) := by
  unfold preAgentRest
  refine evsExt_bind (stageVersion_evsExt env _ (by simp [preAgentEvents]) s) (fun t => ?_)
  refine evsExt_bind (stageToken_evsExt env _ (by simp [preAgentEvents]) t) (fun t2 => ?_)
  refine evsExt_bind (stageCIDR_evsExt env _ (by simp [preAgentEvents])
    (by simp [preAgentEvents]) (by simp [preAgentEvents]) t2) (fun t3 => ?_)
  refine runEnsureSteps_evsExt _ _ ?_ t3
  rw [tailStepsA_fst]
  intro e he
  simp at he
  rcases he with h | h | h | h <;> simp [h, preAgentEvents]

theorem reconcileRest_evsExt (env : ReconcileEnv) (s : RecSt) :
    EvsExt restEvents s (reconcileRest env s) := by
  unfold reconcileRest
  refine evsExt_bind (evsExt_mono ?_ (preAgentRest_evsExt env s)) (fun t => ?_)
  · intro e he
    simp [preAgentEvents] at he
    rcases he with h | h | h | h | h | h | h | h | h <;> simp [h, restEvents]
  refine evsExt_bind (ensureAgentE_evsExt env _ (by simp [restEvents])
    (by simp [restEvents]) (by simp [restEvents]) t) (fun t2 => ?_)
  refine runEnsureSteps_evsExt _ _ ?_ t2
  rw [tailStepsB_fst]
  intro e he
  simp at he
  rcases he with h | h | h | h <;> simp [h, restEvents]

theorem preAgentRest_err (env : ReconcileEnv) (s : RecSt) :
    ErrEnv (preAgentRest env s) := by
  unfold preAgentRest
  refine errEnv_bind (fun x h => stageVersion_err env s x h) (fun t => ?_)
  refine errEnv_bind (fun x h => stageToken_err env t x h) (fun t2 => ?_)
  refine errEnv_bind (fun x h => ?_) (fun t3 x h => runEnsureSteps_err _ _ _ h)
  rw [stageCIDR_eq] at h
  cases h

theorem reconcileRest_err (env : ReconcileEnv) (s : RecSt) :
    ErrEnv (reconcileRest env s) := by
  unfold reconcileRest
  refine errEnv_bind (preAgentRest_err env s) (fun t => ?_)
  refine errEnv_bind (fun x h => ensureAgentE_err env t x h)
    (fun t2 x h => runEnsureSteps_err _ _ _ h)

theorem stageVersion_skip (env : ReconcileEnv) (s : RecSt)
    (h : ¬(s.c.spec.version = "" ∧ s.c.status.hostVersion = "")) :
    stageVersion env s = .ok s := by
  unfold stageVersion
  rw [if_neg h]

theorem stageVersion_fail (env : ReconcileEnv) (s : RecSt) (e : EnvErr)
    (hg : s.c.spec.version = "" ∧ s.c.status.hostVersion = "")
    (hsv : env.serverVersion = .error e) :
    stageVersion env s = .error (⟨s.c, s.evs ++ [Ev.serverVersionQuery]⟩, e.toGoErr) := by
  obtain ⟨_, _, sv, _, _, _, _, _, _, _, _, _, _, _, _, _, _⟩ := env
  unfold stageVersion
  dsimp only at hsv ⊢
  subst hsv
  rw [if_pos hg]

theorem stageToken_ok (env : ReconcileEnv) (s : RecSt) (tok : String)
    (h : env.token = .ok tok) :
    stageToken env s = .ok ⟨s.c, s.evs ++ [Ev.tokenFetch]⟩ := by
  obtain ⟨_, _, _, tk, _, _, _, _, _, _, _, _, _, _, _, _, _⟩ := env
  unfold stageToken
  dsimp only at h ⊢
  subst h
  rfl

theorem stageToken_fail (env : ReconcileEnv) (s : RecSt) (e : EnvErr)
    (h : env.token = .error e) :
    stageToken env s = .error (⟨s.c, s.evs ++ [Ev.tokenFetch]⟩, e.toGoErr) := by
  obtain ⟨_, _, _, tk, _, _, _, _, _, _, _, _, _, _, _, _, _⟩ := env
  unfold stageToken
  dsimp only at h ⊢
  subst h
  rfl

theorem runEnsureSteps_ok_c (l : List (Ev × Option EnvErr)) (s t : RecSt)
    (h : runEnsureSteps s l = .ok t) : t.c = s.c := by
  have h2 := runEnsureSteps_c l s
  rw [h, stOf_ok] at h2
  exact h2

theorem runEnsureSteps_error_c (l : List (Ev × Option EnvErr)) (s : RecSt)
    (x : RecSt × GoErr) (h : runEnsureSteps s l = .error x) : x.1.c = s.c := by
  have h2 := runEnsureSteps_c l s
  rw [h, stOf_error] at h2
  exact h2

/-- The token, CIDR and pre-agent ensure steps, seen from a successful
outcome: the cluster gains exactly the recomputed CIDR fields. -/
theorem tokenCidrTailA_ok (env : ReconcileEnv) (s1 t : RecSt)
    (h : ((stageToken env s1) >>= fun s => (stageCIDR env s) >>= fun s =>
          runEnsureSteps s (tailStepsA env)) = .ok t) :
    t.c = { s1.c with status := { s1.c.status with
        clusterCIDR := clusterCIDROf s1.c.spec
        serviceCIDR := serviceCIDROf env s1.c.spec } } := by
  cases htk : env.token with
  | error e =>
    rw [stageToken_fail env s1 e htk, recm_bind_error] at h
    cases h
  | ok tok =>
    rw [stageToken_ok env s1 tok htk, recm_bind_ok] at h
    rw [stageCIDR_eq, recm_bind_ok] at h
    exact runEnsureSteps_ok_c _ _ t h

/-- The same segment seen from a failing outcome: either the token fetch
failed (cluster unchanged, no CIDR event) or a later ensure step failed with
the CIDR fields already recomputed. -/
theorem tokenCidrTailA_error (env : ReconcileEnv) (s1 : RecSt) (x : RecSt × GoErr)
    (h : ((stageToken env s1) >>= fun s => (stageCIDR env s) >>= fun s =>
          runEnsureSteps s (tailStepsA env)) = .error x) :
    (x.1.c = s1.c ∧ x.1.evs = s1.evs ++ [Ev.tokenFetch]) ∨
    x.1.c = { s1.c with status := { s1.c.status with
        clusterCIDR := clusterCIDROf s1.c.spec
        serviceCIDR := serviceCIDROf env s1.c.spec } } := by
  cases htk : env.token with
  | error e =>
    rw [stageToken_fail env s1 e htk, recm_bind_error] at h
    injection h with hh
    subst hh
    exact Or.inl ⟨rfl, rfl⟩
  | ok tok =>
    rw [stageToken_ok env s1 tok htk, recm_bind_ok] at h
    rw [stageCIDR_eq, recm_bind_ok] at h
    exact Or.inr (runEnsureSteps_error_c _ _ x h)

theorem preAgentRest_ok (env : ReconcileEnv) (s t : RecSt)
    (h : preAgentRest env s = .ok t) :
    ∃ hv,
      t.c = { s.c with status := { s.c.status with
          hostVersion := hv
          clusterCIDR := clusterCIDROf s.c.spec
          serviceCIDR := serviceCIDROf env s.c.spec } }
      ∧ (s.c.status.hostVersion ≠ "" → hv = s.c.status.hostVersion)
      ∧ (∀ gv, s.c.spec.version = "" → s.c.status.hostVersion = "" →
          env.serverVersion = .ok gv → hv = ((stringsSplit gv "+").headD "") ++ "-k3s1") := by
  unfold preAgentRest at h
  by_cases hg : s.c.spec.version = "" ∧ s.c.status.hostVersion = ""
  · cases hsv : env.serverVersion with
    | error e =>
      rw [stageVersion_fail env s e hg hsv, recm_bind_error] at h
      cases h
    | ok gv =>
      rw [stageVersion_set env s gv hg.1 hg.2 hsv, recm_bind_ok] at h
      have hc := tokenCidrTailA_ok env _ t h
      refine ⟨((stringsSplit gv "+").headD "") ++ "-k3s1", hc,
        fun hne => absurd hg.2 hne, fun gv2 _ _ hok => ?_⟩
      injection hok with hh
      rw [hh]
  · rw [stageVersion_skip env s hg, recm_bind_ok] at h
    have hc := tokenCidrTailA_ok env s t h
    exact ⟨s.c.status.hostVersion, hc, fun _ => rfl,
      fun gv hv1 hv2 _ => absurd ⟨hv1, hv2⟩ hg⟩

theorem preAgentRest_error (env : ReconcileEnv) (s : RecSt) (x : RecSt × GoErr)
    (h : preAgentRest env s = .error x) :
    ∃ hv,
      ((x.1.c = { s.c with status := { s.c.status with hostVersion := hv } } ∧
          (Ev.setCIDRs ∈ x.1.evs → Ev.setCIDRs ∈ s.evs)) ∨
        x.1.c = { s.c with status := { s.c.status with
            hostVersion := hv
            clusterCIDR := clusterCIDROf s.c.spec
            serviceCIDR := serviceCIDROf env s.c.spec } })
      ∧ (s.c.status.hostVersion ≠ "" → hv = s.c.status.hostVersion)
      ∧ (∀ gv, s.c.spec.version = "" → s.c.status.hostVersion = "" →
          env.serverVersion = .ok gv → hv = ((stringsSplit gv "+").headD "") ++ "-k3s1") := by
  unfold preAgentRest at h
  by_cases hg : s.c.spec.version = "" ∧ s.c.status.hostVersion = ""
  · cases hsv : env.serverVersion with
    | error e =>
      rw [stageVersion_fail env s e hg hsv, recm_bind_error] at h
      injection h with hh
      subst hh
      refine ⟨s.c.status.hostVersion, Or.inl ⟨rfl, fun hmem => ?_⟩, fun _ => rfl,
        fun gv _ _ hok => by cases hok⟩
      simp only [] at hmem
      rcases List.mem_append.mp hmem with hmem | hmem
      · exact hmem
      · simp at hmem
    | ok gv =>
      rw [stageVersion_set env s gv hg.1 hg.2 hsv, recm_bind_ok] at h
      have hc := tokenCidrTailA_error env _ x h
      refine ⟨((stringsSplit gv "+").headD "") ++ "-k3s1", ?_,
        fun hne => absurd hg.2 hne, fun gv2 _ _ hok => ?_⟩
      · rcases hc with ⟨hc1, hc2⟩ | hc
        · refine Or.inl ⟨hc1, fun hmem => ?_⟩
          rw [hc2] at hmem
          simp only [] at hmem
          rcases List.mem_append.mp hmem with hmem | hmem
          · rcases List.mem_append.mp hmem with hmem | hmem
            · exact hmem
            · simp at hmem
          · simp at hmem
        · exact Or.inr hc
      · injection hok with hh
        rw [hh]
  · rw [stageVersion_skip env s hg, recm_bind_ok] at h
    have hc := tokenCidrTailA_error env s x h
    refine ⟨s.c.status.hostVersion, ?_, fun _ => rfl,
      fun gv hv1 hv2 _ => absurd ⟨hv1, hv2⟩ hg⟩
    rcases hc with ⟨hc1, hc2⟩ | hc
    · refine Or.inl ⟨hc1, fun hmem => ?_⟩
      rw [hc2] at hmem
      rcases List.mem_append.mp hmem with hmem | hmem
      · exact hmem
      · simp at hmem
    · exact Or.inr hc

/-! ## Characterizations of the full convergence procedure -/

theorem reconcile_fst (env : ReconcileEnv) (c : Cluster) :
    (reconcile env c).1 = (stOf (reconcileE env c)).c := by
  unfold reconcile
  cases h : reconcileE env c <;> simp [stOf]

theorem reconcile_evs (env : ReconcileEnv) (c : Cluster) :
    (reconcile env c).2.2 = (stOf (reconcileE env c)).evs := by
  unfold reconcile
  cases h : reconcileE env c <;> simp [stOf]

theorem reconcile_err_eq (env : ReconcileEnv) (c : Cluster) :
    (reconcile env c).2.1 =
      (match reconcileE env c with
       | .ok _ => none
       | .error x => some x.2) := by
  unfold reconcile
  cases h : reconcileE env c <;> simp

/-- The agent step followed by the closing ensure steps only overrides the
port fields of the status. -/
theorem agentTailB_c (env : ReconcileEnv) (t : RecSt) :
    ∃ kp wp, (stOf ((ensureAgentE env t) >>= fun s => runEnsureSteps s (tailStepsB env))).c =
      { t.c with status := { t.c.status with kubeletPort := kp, webhookPort := wp } } := by
  cases ha : ensureAgentE env t with
  | error y =>
    rw [recm_bind_error]
    have hc := ensureAgentE_c env t
    rw [ha] at hc
    exact hc
  | ok u =>
    rw [recm_bind_ok]
    have hc := ensureAgentE_c env t
    rw [ha, stOf_ok] at hc
    obtain ⟨kp, wp, hc⟩ := hc
    cases hb : runEnsureSteps u (tailStepsB env) with
    | error z =>
      rw [stOf_error]
      exact ⟨kp, wp, (runEnsureSteps_error_c _ _ _ hb).trans hc⟩
    | ok v =>
      rw [stOf_ok]
      exact ⟨kp, wp, (runEnsureSteps_ok_c _ _ _ hb).trans hc⟩

theorem reconcileRest_cidr (env : ReconcileEnv) (s : RecSt)
    (h : Ev.setCIDRs ∈ (stOf (reconcileRest env s)).evs)
    (h0 : Ev.setCIDRs ∉ s.evs) :
    (stOf (reconcileRest env s)).c.status.clusterCIDR = clusterCIDROf s.c.spec ∧
    (stOf (reconcileRest env s)).c.status.serviceCIDR = serviceCIDROf env s.c.spec := by
  unfold reconcileRest at h ⊢
  cases hpre : preAgentRest env s with
  | error x =>
    rw [hpre] at h
    rw [recm_bind_error] at h ⊢
    obtain ⟨hv, hd, _, _⟩ := preAgentRest_error env s x hpre
    rcases hd with ⟨hc1, himp⟩ | hc
    · rw [stOf_error] at h
      exact absurd (himp h) h0
    · rw [stOf_error, hc]
      exact ⟨rfl, rfl⟩
  | ok t =>
    rw [hpre] at h
    rw [recm_bind_ok] at h ⊢
    obtain ⟨hv, hc, _, _⟩ := preAgentRest_ok env s t hpre
    obtain ⟨kp, wp, hfin⟩ := agentTailB_c env t
    rw [hfin, hc]
    exact ⟨rfl, rfl⟩

theorem reconcileRest_hostVersion_keep (env : ReconcileEnv) (s : RecSt)
    (h : s.c.status.hostVersion ≠ "") :
    (stOf (reconcileRest env s)).c.status.hostVersion = s.c.status.hostVersion := by
  unfold reconcileRest
  cases hpre : preAgentRest env s with
  | error x =>
    rw [recm_bind_error, stOf_error]
    obtain ⟨hv, hd, hsticky, _⟩ := preAgentRest_error env s x hpre
    rcases hd with ⟨hc, _⟩ | hc <;> rw [hc] <;> exact hsticky h
  | ok t =>
    rw [recm_bind_ok]
    obtain ⟨hv, hc, hsticky, _⟩ := preAgentRest_ok env s t hpre
    obtain ⟨kp, wp, hfin⟩ := agentTailB_c env t
    rw [hfin, hc]
    exact hsticky h

theorem reconcileRest_hostVersion_set (env : ReconcileEnv) (s : RecSt) (gv : String)
    (h1 : s.c.spec.version = "") (h2 : s.c.status.hostVersion = "")
    (h3 : env.serverVersion = .ok gv) :
    (stOf (reconcileRest env s)).c.status.hostVersion =
      ((stringsSplit gv "+").headD "") ++ "-k3s1" := by
  unfold reconcileRest
  cases hpre : preAgentRest env s with
  | error x =>
    rw [recm_bind_error, stOf_error]
    obtain ⟨hv, hd, _, hder⟩ := preAgentRest_error env s x hpre
    rcases hd with ⟨hc, _⟩ | hc <;> rw [hc] <;> exact hder gv h1 h2 h3
  | ok t =>
    rw [recm_bind_ok]
    obtain ⟨hv, hc, _, hder⟩ := preAgentRest_ok env s t hpre
    obtain ⟨kp, wp, hfin⟩ := agentTailB_c env t
    rw [hfin, hc]
    exact hder gv h1 h2 h3

theorem stagePolicy_spec (env : ReconcileEnv) (s : RecSt) :
    (stOf (stagePolicy env s)).c.spec = s.c.spec := by
  rcases stagePolicy_c env s with h | ⟨p, h⟩ <;> rw [h]

theorem stagePolicy_status (env : ReconcileEnv) (s : RecSt) :
    (stOf (stagePolicy env s)).c.status.hostVersion = s.c.status.hostVersion ∧
    (stOf (stagePolicy env s)).c.status.kubeletPort = s.c.status.kubeletPort ∧
    (stOf (stagePolicy env s)).c.status.webhookPort = s.c.status.webhookPort := by
  rcases stagePolicy_c env s with h | ⟨p, h⟩ <;> rw [h] <;> exact ⟨rfl, rfl, rfl⟩

theorem reconcileE_cidr (env : ReconcileEnv) (c : Cluster)
    (h : Ev.setCIDRs ∈ (stOf (reconcileE env c)).evs) :
    (stOf (reconcileE env c)).c.status.clusterCIDR = clusterCIDROf c.spec ∧
    (stOf (reconcileE env c)).c.status.serviceCIDR = serviceCIDROf env c.spec := by
  unfold reconcileE at h ⊢
  cases hp : stagePolicy env ⟨c, []⟩ with
  | error x =>
    rw [hp, recm_bind_error] at h
    obtain ⟨l, hl, hsub⟩ := stagePolicy_evs env ⟨c, []⟩
    rw [hp, stOf_error] at hl
    rw [stOf_error, hl] at h
    simp only [List.nil_append] at h
    rcases hsub _ h with h2 | h2 | h2 <;> simp at h2
  | ok s1 =>
    rw [hp] at h
    rw [recm_bind_ok] at h ⊢
    have h0 : Ev.setCIDRs ∉ s1.evs := by
      obtain ⟨l, hl, hsub⟩ := stagePolicy_evs env ⟨c, []⟩
      rw [hp, stOf_ok] at hl
      rw [hl]
      intro hmem
      simp only [List.nil_append] at hmem
      rcases hsub _ hmem with h2 | h2 | h2 <;> simp at h2
    have hres := reconcileRest_cidr env s1 h h0
    have hspec := stagePolicy_spec env ⟨c, []⟩
    rw [hp, stOf_ok] at hspec
    rw [hspec] at hres
    exact hres

theorem reconcileE_hostVersion_keep (env : ReconcileEnv) (c : Cluster)
    (h : c.status.hostVersion ≠ "") :
    (stOf (reconcileE env c)).c.status.hostVersion = c.status.hostVersion := by
  unfold reconcileE
  cases hp : stagePolicy env ⟨c, []⟩ with
  | error x =>
    rw [recm_bind_error]
    have h1 := (stagePolicy_status env ⟨c, []⟩).1
    rw [hp] at h1
    exact h1
  | ok s1 =>
    rw [recm_bind_ok]
    have h1 := (stagePolicy_status env ⟨c, []⟩).1
    rw [hp, stOf_ok] at h1
    have h2 := reconcileRest_hostVersion_keep env s1 (by rw [h1]; exact h)
    rw [h2, h1]

theorem reconcileE_hostVersion_set (env : ReconcileEnv) (c : Cluster) (gv : String)
    (h1 : c.spec.version = "") (h2 : c.status.hostVersion = "")
    (h3 : env.serverVersion = .ok gv)
    (h4 : Ev.serverVersionQuery ∈ (stOf (reconcileE env c)).evs) :
    (stOf (reconcileE env c)).c.status.hostVersion =
      ((stringsSplit gv "+").headD "") ++ "-k3s1" := by
  unfold reconcileE at h4 ⊢
  cases hp : stagePolicy env ⟨c, []⟩ with
  | error x =>
    rw [hp, recm_bind_error] at h4
    obtain ⟨l, hl, hsub⟩ := stagePolicy_evs env ⟨c, []⟩
    rw [hp, stOf_error] at hl
    rw [stOf_error, hl] at h4
    simp only [List.nil_append] at h4
    rcases hsub _ h4 with h5 | h5 | h5 <;> simp at h5
  | ok s1 =>
    rw [recm_bind_ok]
    have hsp := stagePolicy_spec env ⟨c, []⟩
    rw [hp, stOf_ok] at hsp
    have hst := (stagePolicy_status env ⟨c, []⟩).1
    rw [hp, stOf_ok] at hst
    exact reconcileRest_hostVersion_set env s1 gv (by rw [hsp]; exact h1)
      (by rw [hst]; exact h2) h3

theorem reconcileE_no_validation (env : ReconcileEnv) (c : Cluster) (nsi : NsInfo)
    (hns : env.getNamespace = .ok nsi)
    (hl : nsi.policyLabel = none ∨ nsi.policyLabel = some "") :
    Ev.validateCheck ∉ (stOf (reconcileE env c)).evs ∧
    Ev.getPolicy ∉ (stOf (reconcileE env c)).evs ∧
    ∀ x, reconcileE env c = .error x → ∃ ee : EnvErr, x.2 = ee.toGoErr := by
  unfold reconcileE
  rw [stagePolicy_no_policy env ⟨c, []⟩ nsi hns hl, recm_bind_ok]
  obtain ⟨l, hl2, hsub⟩ := reconcileRest_evsExt env
    ⟨{ c with status := { c.status with policyName := "" } }, [] ++ [Ev.getNamespace]⟩
  refine ⟨?_, ?_, fun x hx => reconcileRest_err env _ x hx⟩
  · rw [hl2]
    intro hmem
    rcases List.mem_append.mp hmem with h | h
    · simp at h
    · have := hsub _ h
      simp [restEvents] at this
  · rw [hl2]
    intro hmem
    rcases List.mem_append.mp hmem with h | h
    · simp at h
    · have := hsub _ h
      simp [restEvents] at this

theorem reconcileE_validate_fail (env : ReconcileEnv) (c : Cluster) (p : String)
    (pol : PolicyInfo)
    (hns : env.getNamespace = .ok ⟨some p⟩) (hp : p ≠ "")
    (hpol : env.policyResult = .ok pol)
    (hbad : c.name = ClusterInvalidName ∨ c.spec.mode ≠ pol.allowedMode) :
    ∃ m, reconcileE env c = .error
      (⟨{ c with status := { c.status with policyName := p } },
        [Ev.getNamespace, Ev.getPolicy, Ev.validateCheck]⟩, GoErr.validation m) := by
  obtain ⟨m, hm⟩ := stagePolicy_validate_fail env ⟨c, []⟩ p pol hns hp hpol hbad
  refine ⟨m, ?_⟩
  unfold reconcileE
  rw [hm, recm_bind_error]
  rfl

/-- Unfolding lemma: `ensureAgent` in shared mode with mirroring reduces to the
port-allocation block followed by `EnsureResources`. -/
theorem ensureAgentE_shared (env : ReconcileEnv) (t : RecSt)
    (hmode : ¬ t.c.spec.mode = VirtualNodeMode)
    (hmir : t.c.spec.mirrorHostNodes = true) :
    ensureAgentE env t = afterPorts env (allocatePorts env t) := by
  unfold ensureAgentE
  rw [if_neg hmode, if_pos hmir]

theorem reconcileE_ports (env : ReconcileEnv) (c : Cluster)
    (hm : c.spec.mode ≠ VirtualNodeMode)
    (hmir : c.spec.mirrorHostNodes = true)
    (hreach : Ev.allocKubeletPort ∈ (stOf (reconcileE env c)).evs) :
    (∀ e, env.allocateKubeletPort = .error e →
        (stOf (reconcileE env c)).c.status.kubeletPort = c.status.kubeletPort ∧
        (stOf (reconcileE env c)).c.status.webhookPort = c.status.webhookPort) ∧
    (∀ p e, env.allocateKubeletPort = .ok p → env.allocateWebhookPort = .error e →
        (stOf (reconcileE env c)).c.status.kubeletPort = p ∧
        (stOf (reconcileE env c)).c.status.webhookPort = c.status.webhookPort) ∧
    (∀ p q, env.allocateKubeletPort = .ok p → env.allocateWebhookPort = .ok q →
        (stOf (reconcileE env c)).c.status.kubeletPort = p ∧
        (stOf (reconcileE env c)).c.status.webhookPort = q) := by
  unfold reconcileE at hreach ⊢
  cases hp : stagePolicy env ⟨c, []⟩ with
  | error x =>
    rw [hp, recm_bind_error] at hreach
    obtain ⟨l, hl, hsub⟩ := stagePolicy_evs env ⟨c, []⟩
    rw [hp, stOf_error] at hl
    rw [stOf_error, hl] at hreach
    simp only [List.nil_append] at hreach
    rcases hsub _ hreach with h2 | h2 | h2 <;> simp at h2
  | ok s1 =>
    rw [hp] at hreach
    rw [recm_bind_ok] at hreach ⊢
    have hsp := stagePolicy_spec env ⟨c, []⟩
    rw [hp, stOf_ok] at hsp
    have hst := stagePolicy_status env ⟨c, []⟩
    rw [hp, stOf_ok] at hst
    unfold reconcileRest at hreach ⊢
    cases hpre : preAgentRest env s1 with
    | error x =>
      rw [hpre, recm_bind_error] at hreach
      obtain ⟨l, hl, hsub⟩ := preAgentRest_evsExt env s1
      rw [hpre, stOf_error] at hl
      rw [stOf_error, hl] at hreach
      rcases List.mem_append.mp hreach with h2 | h2
      · obtain ⟨l0, hl0, hsub0⟩ := stagePolicy_evs env ⟨c, []⟩
        rw [hp, stOf_ok] at hl0
        rw [hl0] at h2
        simp only [List.nil_append] at h2
        rcases hsub0 _ h2 with h3 | h3 | h3 <;> simp at h3
      · have := hsub _ h2
        simp [preAgentEvents] at this
    | ok t =>
      rw [hpre] at hreach
      rw [recm_bind_ok] at hreach ⊢
      obtain ⟨hv, htc, _, _⟩ := preAgentRest_ok env s1 t hpre
      have htmode : t.c.spec.mode = c.spec.mode := by rw [htc, hsp]
      have htmir : t.c.spec.mirrorHostNodes = true := by rw [htc, hsp]; exact hmir
      have htk : t.c.status.kubeletPort = c.status.kubeletPort := by
        rw [htc]
        exact hst.2.1
      have htw : t.c.status.webhookPort = c.status.webhookPort := by
        rw [htc]
        exact hst.2.2
      rw [ensureAgentE_shared env t (by rw [htmode]; exact hm) htmir]
      refine ⟨fun e he => ?_, fun p e hk hw => ?_, fun p q hk hw => ?_⟩
      · rw [allocatePorts_kubeletFail env t e he, afterPorts_error, recm_bind_error,
          stOf_error]
        exact ⟨htk, htw⟩
      · rw [allocatePorts_webhookFail env t p e hk hw, afterPorts_error, recm_bind_error,
          stOf_error]
        exact ⟨rfl, htw⟩
      · rw [allocatePorts_ok env t p q hk hw, afterPorts_ok]
        cases ha : agentEnsureResources env
            ⟨{ t.c with status := { t.c.status with kubeletPort := p, webhookPort := q } },
             t.evs ++ [Ev.allocKubeletPort, Ev.allocWebhookPort]⟩ with
        | error y =>
          rw [recm_bind_error, stOf_error]
          have hc := agentEnsureResources_c env
            ⟨{ t.c with status := { t.c.status with kubeletPort := p, webhookPort := q } },
             t.evs ++ [Ev.allocKubeletPort, Ev.allocWebhookPort]⟩
          rw [ha, stOf_error] at hc
          rw [hc]
          exact ⟨rfl, rfl⟩
        | ok u =>
          rw [recm_bind_ok]
          have hc := agentEnsureResources_c env
            ⟨{ t.c with status := { t.c.status with kubeletPort := p, webhookPort := q } },
             t.evs ++ [Ev.allocKubeletPort, Ev.allocWebhookPort]⟩
          rw [ha, stOf_ok] at hc
          cases hb : runEnsureSteps u (tailStepsB env) with
          | error z =>
            rw [stOf_error]
            have := runEnsureSteps_error_c _ _ _ hb
            rw [this, hc]
            exact ⟨rfl, rfl⟩
          | ok v =>
            rw [stOf_ok]
            have := runEnsureSteps_ok_c _ _ _ hb
            rw [this, hc]
            exact ⟨rfl, rfl⟩

/-! ## Engine-level helper lemmas -/

theorem reconcileCluster_status (env : ReconcileEnv) (c : Cluster) :
    (reconcileCluster env c).1.status =
      updateStatus (reconcile env c).1.status (reconcile env c).2.1 := rfl

theorem reconcileCluster_evs (env : ReconcileEnv) (c : Cluster) :
    (reconcileCluster env c).2.2 = (reconcile env c).2.2 := rfl

theorem reconcileCluster_err (env : ReconcileEnv) (c : Cluster) :
    (reconcileCluster env c).2.1 = (reconcile env c).2.1 := rfl

theorem updateStatus_ports (st : ClusterStatus) (e : Option GoErr) :
    (updateStatus st e).kubeletPort = st.kubeletPort ∧
    (updateStatus st e).webhookPort = st.webhookPort := by
  cases e <;> exact ⟨rfl, rfl⟩

theorem find_setStatusCondition (conds : List Condition) (n : Condition) :
    findStatusCondition (setStatusCondition conds n) n.condType = some n := by
  induction conds with
  | nil => simp [setStatusCondition, findStatusCondition, List.find?]
  | cons cond rest ih =>
    unfold setStatusCondition
    by_cases h : cond.condType = n.condType
    · rw [if_pos h]
      simp [findStatusCondition, List.find?]
    · rw [if_neg h]
      unfold findStatusCondition at ih ⊢
      simp only [List.find?]
      rw [decide_eq_false h]
      exact ih

theorem classifyOutcome_some (env : EngineEnv) (c c1 : Cluster) (e : GoErr)
    (acts : List Act) :
    classifyOutcome env c c1 (some e) acts =
      (if e = GoErr.serverNotReady then
        { result := { requeueAfterSec := 10 }, err := none, acts := acts }
       else { result := {}, err := some e, acts := acts }) := rfl

theorem classifyOutcome_acts (env : EngineEnv) (c c1 : Cluster) (recErr : Option GoErr)
    (acts : List Act) :
    (classifyOutcome env c c1 recErr acts).acts = acts ∨
    (classifyOutcome env c c1 recErr acts).acts = acts ++ [Act.clusterUpdate c1] := by
  unfold classifyOutcome
  cases recErr with
  | some e =>
    by_cases hse : e = GoErr.serverNotReady <;> simp [hse]
  | none =>
    by_cases hsp : c1.spec = c.spec
    · simp [hsp]
    · cases env.specUpdate <;> simp [hsp]

theorem afterStatusWrite_some (env : EngineEnv) (c c1 : Cluster) (recErr : Option GoErr)
    (acts : List Act) (e : EnvErr) (h : env.statusUpdate2 = some e) :
    afterStatusWrite env c c1 recErr acts =
      { result := {}, err := some e.toGoErr, acts := acts } := by
  unfold afterStatusWrite
  rw [h]

theorem afterStatusWrite_none (env : EngineEnv) (c c1 : Cluster) (recErr : Option GoErr)
    (acts : List Act) (h : env.statusUpdate2 = none) :
    afterStatusWrite env c c1 recErr acts = classifyOutcome env c c1 recErr acts := by
  unfold afterStatusWrite
  rw [h]

/-- The engine reaches the convergence pass exactly for loaded, live,
initialized, finalized Clusters. -/
theorem ReconcileTop_converge (env : EngineEnv) (c : Cluster)
    (hdel : c.deletionTimestampZero = true)
    (hphase : ¬(c.status.phase = "" ∨ c.status.phase = ClusterUnknown))
    (hfin : clusterFinalizerName ∈ c.finalizers) :
    ReconcileTop env c = convergePass env c := by
  unfold ReconcileTop
  rw [if_neg (by simp [hdel]), if_neg hphase, if_neg (by simp [hfin])]

theorem reconcileE_err_kinds (env : ReconcileEnv) (c : Cluster) (x : RecSt × GoErr)
    (h : reconcileE env c = .error x) :
    (∃ ee : EnvErr, x.2 = ee.toGoErr) ∨ ∃ m, x.2 = GoErr.validation m := by
  unfold reconcileE at h
  cases hp : stagePolicy env ⟨c, []⟩ with
  | error y =>
    rw [hp, recm_bind_error] at h
    injection h with hh
    subst hh
    exact stagePolicy_err env _ y hp
  | ok s1 =>
    rw [hp, recm_bind_ok] at h
    exact Or.inl (reconcileRest_err env s1 x h)

theorem reconcile_not_cidrParse (env : ReconcileEnv) (c : Cluster) (msg : String) :
    (reconcile env c).2.1 ≠ some (GoErr.cidrParse msg) := by
  rw [reconcile_err_eq]
  cases hE : reconcileE env c with
  | ok t => simp
  | error x =>
    intro hcontra
    have hcontra2 : some x.2 = some (GoErr.cidrParse msg) := hcontra
    injection hcontra2 with hcontra
    rcases reconcileE_err_kinds env c x hE with ⟨ee, hee⟩ | ⟨m, hm⟩
    · rw [hcontra] at hee
      cases ee <;> cases hee
    · rw [hcontra] at hm
      cases hm

/-! ## Lookup-specific lemmas for the CIDR discovery heuristic -/

theorem lookupServiceCIDR_hint_bad (env : ReconcileEnv) (msg : String)
    (hmsg : env.failingServiceCreateErr = some msg)
    (hlen : 1 < (stringsSplit msg rangeHintMarker).length)
    (hbad : parseCIDR (stringsTrimSpace ((stringsSplit msg rangeHintMarker).get ⟨1, hlen⟩)) = none) :
    lookupServiceCIDR env =
      ("", some (GoErr.cidrParse (stringsTrimSpace ((stringsSplit msg rangeHintMarker).get ⟨1, hlen⟩))),
       [Ev.cidrLookupFailingService]) := by
  obtain ⟨gns, pr, sv, tk, fsc, lp, akp, awp, a, b, d, e2, f, g, h2, i, j⟩ := env
  dsimp only at hmsg hbad ⊢
  subst hmsg
  unfold lookupServiceCIDR
  dsimp only
  rw [dif_pos hlen, hbad]

theorem lookupServiceCIDR_hint_ok (env : ReconcileEnv) (msg canon : String)
    (hmsg : env.failingServiceCreateErr = some msg)
    (hlen : 1 < (stringsSplit msg rangeHintMarker).length)
    (hok : parseCIDR (stringsTrimSpace ((stringsSplit msg rangeHintMarker).get ⟨1, hlen⟩)) = some canon) :
    lookupServiceCIDR env = (canon, none, [Ev.cidrLookupFailingService]) := by
  obtain ⟨gns, pr, sv, tk, fsc, lp, akp, awp, a, b, d, e2, f, g, h2, i, j⟩ := env
  dsimp only at hmsg hok ⊢
  subst hmsg
  unfold lookupServiceCIDR
  dsimp only
  rw [dif_pos hlen, hok]

theorem lookupServiceCIDR_pod (env : ReconcileEnv) (hno : hintAbsent env) :
    lookupServiceCIDR env = lookupFromAPIServerPod env [Ev.cidrLookupFailingService] := by
  obtain ⟨gns, pr, sv, tk, fsc, lp, akp, awp, a, b, d, e2, f, g, h2, i, j⟩ := env
  rcases hno with h | ⟨msg, h, hlen⟩ <;> dsimp only at h <;> subst h <;>
    unfold lookupServiceCIDR <;> dsimp only
  rw [dif_neg hlen]

theorem lookupFromPod_first (env : ReconcileEnv) (args : List String)
    (hlp : env.listPods = .ok [⟨args⟩]) (evs : List Ev) :
    lookupFromAPIServerPod env evs =
      (scanAPIServerArgs args, none, evs ++ [Ev.cidrLookupPodList]) := by
  obtain ⟨gns, pr, sv, tk, fsc, lp, akp, awp, a, b, d, e2, f, g, h2, i, j⟩ := env
  dsimp only at hlp ⊢
  subst hlp
  unfold lookupFromAPIServerPod
  dsimp only

theorem scanAPIServerArgs_single (arg raw canon : String)
    (hstart : strStartsWith arg serviceRangeFlag = true)
    (hdrop : strTrimLeading arg serviceRangeFlag = raw)
    (hp : parseCIDR raw = some canon) :
    scanAPIServerArgs [arg] = canon := by
  simp only [scanAPIServerArgs]
  rw [if_pos hstart, hdrop, hp]

theorem lookupOutcome_err (env : ReconcileEnv) (e : GoErr)
    (h : (lookupServiceCIDR env).2.1 = some e) :
    lookupOutcome env = defaultSharedServiceCIDR := by
  unfold lookupOutcome
  rw [h]

theorem serviceCIDROf_shared (env : ReconcileEnv) (spec : ClusterSpec)
    (hsc : spec.serviceCIDR = "") (hmode : spec.mode = SharedClusterMode) :
    serviceCIDROf env spec = lookupOutcome env := by
  unfold serviceCIDROf
  rw [if_pos hsc, if_pos hmode]

/-! ## Claim C1 -/

/-- C1 counterexample: for a shared-mode Cluster with host-node mirroring
and no ports recorded, a webhook-port allocation failure after a successful
kubelet-port allocation makes the reconciliation pass persist a status with
exactly one of the two ports set: the status write carries kubelet port
50001 and webhook port 0.  This contradicts the claim that the persisted
status never ends up with exactly one of the two ports. -/
theorem C1_partial_port_counterexample :
    (ReconcileTop webhookFailEnv mirrorCluster).acts =
      [Act.converge,
       Act.statusUpdate (reconcileCluster webhookFailEnv.recEnv mirrorCluster).1.status] ∧
    (reconcileCluster webhookFailEnv.recEnv mirrorCluster).1.status.kubeletPort = 50001 ∧
    (reconcileCluster webhookFailEnv.recEnv mirrorCluster).1.status.webhookPort = 0 ∧
    mirrorCluster.status.kubeletPort = 0 ∧
    mirrorCluster.status.webhookPort = 0 ∧
    mirrorCluster.spec.mirrorHostNodes = true ∧
    mirrorCluster.spec.mode = SharedClusterMode ∧
    mirrorCluster.deletionTimestampZero = true ∧
    clusterFinalizerName ∈ mirrorCluster.finalizers := by decide

/-- C1 (amended): in shared mode with host-node mirroring, when the agent
step runs, a kubelet-port allocation failure leaves both ports as they
were, but a webhook-port allocation failure after a successful kubelet
allocation leaves the to-be-persisted status with the new kubelet port and
the old (unset) webhook port — a partial assignment; both ports are
recorded together only when both allocations succeed. -/
theorem C1_port_recording_amended (env : ReconcileEnv) (c : Cluster)
    (hm : c.spec.mode ≠ VirtualNodeMode)
    (hmir : c.spec.mirrorHostNodes = true)
    (hreach : Ev.allocKubeletPort ∈ (reconcileCluster env c).2.2) :
    (∀ e, env.allocateKubeletPort = .error e →
        (reconcileCluster env c).1.status.kubeletPort = c.status.kubeletPort ∧
        (reconcileCluster env c).1.status.webhookPort = c.status.webhookPort) ∧
    (∀ p e, env.allocateKubeletPort = .ok p → env.allocateWebhookPort = .error e →
        (reconcileCluster env c).1.status.kubeletPort = p ∧
        (reconcileCluster env c).1.status.webhookPort = c.status.webhookPort) ∧
    (∀ p q, env.allocateKubeletPort = .ok p → env.allocateWebhookPort = .ok q →
        (reconcileCluster env c).1.status.kubeletPort = p ∧
        (reconcileCluster env c).1.status.webhookPort = q) := by
  rw [reconcileCluster_evs, reconcile_evs] at hreach
  have hbase := reconcileE_ports env c hm hmir hreach
  have hkp : (reconcileCluster env c).1.status.kubeletPort =
      (stOf (reconcileE env c)).c.status.kubeletPort := by
    rw [reconcileCluster_status, (updateStatus_ports _ _).1, reconcile_fst]
  have hwp : (reconcileCluster env c).1.status.webhookPort =
      (stOf (reconcileE env c)).c.status.webhookPort := by
    rw [reconcileCluster_status, (updateStatus_ports _ _).2, reconcile_fst]
  refine ⟨fun e he => ?_, fun p e hk hw => ?_, fun p q hk hw => ?_⟩
  · rw [hkp, hwp]
    exact hbase.1 e he
  · rw [hkp, hwp]
    exact hbase.2.1 p e hk hw
  · rw [hkp, hwp]
    exact hbase.2.2 p q hk hw

theorem C1_port_recording_amended_witness :
    (mirrorCluster.spec.mode ≠ VirtualNodeMode ∧
     mirrorCluster.spec.mirrorHostNodes = true ∧
     Ev.allocKubeletPort ∈ (reconcileCluster webhookFailEnv.recEnv mirrorCluster).2.2) ∧
    ((reconcileCluster webhookFailEnv.recEnv mirrorCluster).1.status.kubeletPort = 50001 ∧
     (reconcileCluster webhookFailEnv.recEnv mirrorCluster).1.status.webhookPort =
       mirrorCluster.status.webhookPort) :=
  ⟨⟨by decide, by decide, by decide⟩,
   (C1_port_recording_amended webhookFailEnv.recEnv mirrorCluster (by decide) (by decide)
      (by decide)).2.1 50001 (EnvErr.ext "webhook ports exhausted") rfl rfl⟩

/-! ## Claim C2 -/

/-- C2 counterexample: a Cluster whose `Status.ClusterCIDR`/`ServiceCIDR`
are already non-empty, re-converged with a spec whose CIDRs differ, ends
the pass with both status CIDRs overwritten by the spec values — the claim
that the recorded status CIDRs never change is false. -/
theorem C2_cidr_overwrite_counterexample :
    cidrCluster.status.clusterCIDR = "10.42.0.0/16" ∧
    cidrCluster.status.serviceCIDR = "10.43.0.0/16" ∧
    cidrCluster.spec.clusterCIDR = "192.168.0.0/16" ∧
    cidrCluster.spec.serviceCIDR = "10.99.0.0/16" ∧
    (reconcile benignEnv cidrCluster).2.1 = none ∧
    (reconcile benignEnv cidrCluster).1.status.clusterCIDR = "192.168.0.0/16" ∧
    (reconcile benignEnv cidrCluster).1.status.serviceCIDR = "10.99.0.0/16" := by decide

/-- C2 (amended): the status CIDRs are not sticky; every convergence pass
that reaches the CIDR step recomputes them as a function of the spec (and,
for the service CIDR in shared mode with an empty spec value, the lookup
environment) alone — a non-empty spec CIDR differing from the recorded
status value therefore overwrites it, and the prior status values are
ignored. -/
theorem C2_cidr_recomputed_amended (env : ReconcileEnv) (c : Cluster)
    (h : Ev.setCIDRs ∈ (reconcile env c).2.2) :
    (reconcile env c).1.status.clusterCIDR = clusterCIDROf c.spec ∧
    (reconcile env c).1.status.serviceCIDR = serviceCIDROf env c.spec := by
  rw [reconcile_evs] at h
  rw [reconcile_fst]
  exact reconcileE_cidr env c h

theorem C2_cidr_recomputed_amended_witness :
    (Ev.setCIDRs ∈ (reconcile benignEnv cidrCluster).2.2) ∧
    ((reconcile benignEnv cidrCluster).1.status.clusterCIDR = clusterCIDROf cidrCluster.spec ∧
     (reconcile benignEnv cidrCluster).1.status.serviceCIDR =
       serviceCIDROf benignEnv cidrCluster.spec) :=
  ⟨by decide, C2_cidr_recomputed_amended benignEnv cidrCluster (by decide)⟩

/-! ## Claim C3 -/

/-- C3 counterexample: shared mode, unset service CIDR, both discovery
strategies fail cleanly (no range hint in the creation error, no
kube-apiserver pod): the pass is not failed, but `Status.ServiceCIDR` is
set to the empty string, not to the default `10.43.0.0/16` the claim
requires. -/
theorem C3_empty_fallback_counterexample :
    sharedNoCidrCluster.spec.mode = SharedClusterMode ∧
    sharedNoCidrCluster.spec.serviceCIDR = "" ∧
    lookupServiceCIDR noHintEnv = ("", none,
      [Ev.cidrLookupFailingService, Ev.cidrLookupPodList]) ∧
    (reconcile noHintEnv sharedNoCidrCluster).2.1 = none ∧
    (reconcile noHintEnv sharedNoCidrCluster).1.status.serviceCIDR = "" ∧
    (reconcile noHintEnv sharedNoCidrCluster).1.status.serviceCIDR ≠
      defaultSharedServiceCIDR := by decide

/-- C3 (amended): in shared mode with an unset service CIDR, the recorded
service CIDR is the lookup outcome: the default `10.43.0.0/16` is assigned
exactly when `lookupServiceCIDR` returns an error; when both strategies
fail without error the lookup returns the empty string and the empty
string — not the default — is recorded.  In either case the lookup never
fails the pass (no CIDR-parse error ever escapes `reconcile`). -/
theorem C3_service_cidr_fallback_amended (env : ReconcileEnv) (c : Cluster)
    (hmode : c.spec.mode = SharedClusterMode)
    (hsc : c.spec.serviceCIDR = "")
    (h : Ev.setCIDRs ∈ (reconcile env c).2.2) :
    (reconcile env c).1.status.serviceCIDR = lookupOutcome env ∧
    (∀ e, (lookupServiceCIDR env).2.1 = some e →
      (reconcile env c).1.status.serviceCIDR = defaultSharedServiceCIDR) ∧
    ((lookupServiceCIDR env).2.1 = none →
      (reconcile env c).1.status.serviceCIDR = (lookupServiceCIDR env).1) ∧
    (∀ msg, (reconcile env c).2.1 ≠ some (GoErr.cidrParse msg)) := by
  have hval : (reconcile env c).1.status.serviceCIDR = lookupOutcome env := by
    rw [reconcile_evs] at h
    rw [reconcile_fst, (reconcileE_cidr env c h).2, serviceCIDROf_shared env c.spec hsc hmode]
  refine ⟨hval, fun e he => ?_, fun hnone => ?_, fun msg => reconcile_not_cidrParse env c msg⟩
  · rw [hval]
    exact lookupOutcome_err env e he
  · rw [hval]
    unfold lookupOutcome
    rw [hnone]

theorem C3_service_cidr_fallback_amended_witness :
    (sharedNoCidrCluster.spec.mode = SharedClusterMode ∧
     sharedNoCidrCluster.spec.serviceCIDR = "" ∧
     Ev.setCIDRs ∈ (reconcile noHintEnv sharedNoCidrCluster).2.2) ∧
    (reconcile noHintEnv sharedNoCidrCluster).1.status.serviceCIDR = lookupOutcome noHintEnv :=
  ⟨⟨by decide, by decide, by decide⟩,
   (C3_service_cidr_fallback_amended noHintEnv sharedNoCidrCluster (by decide) (by decide)
      (by decide)).1⟩

/-! ## Claim C4 -/

/-- C4: for every pass that reaches the convergence procedure, the engine
snapshots the Cluster, and the status sub-resource write appears in the
pass's actions exactly when the post-convergence status differs
structurally from the snapshot's status — with the post-convergence status
as payload — independently of whether convergence returned an error (the
statement holds for every environment, failing or not). -/
theorem C4_status_persist_iff_changed (env : EngineEnv) (c : Cluster)
    (hdel : c.deletionTimestampZero = true)
    (hphase : ¬(c.status.phase = "" ∨ c.status.phase = ClusterUnknown))
    (hfin : clusterFinalizerName ∈ c.finalizers) :
    (Act.statusUpdate (reconcileCluster env.recEnv c).1.status ∈ (ReconcileTop env c).acts ↔
      (reconcileCluster env.recEnv c).1.status ≠ c.status) ∧
    (∀ st, Act.statusUpdate st ∈ (ReconcileTop env c).acts →
      st = (reconcileCluster env.recEnv c).1.status) := by
  rw [ReconcileTop_converge env c hdel hphase hfin]
  unfold convergePass
  by_cases hst : (reconcileCluster env.recEnv c).1.status = c.status
  · rw [if_pos hst]
    rcases classifyOutcome_acts env c (reconcileCluster env.recEnv c).1
        (reconcileCluster env.recEnv c).2.1 [Act.converge] with ha | ha <;> rw [ha]
    · refine ⟨⟨fun hmem => by simp at hmem, fun hne => absurd hst hne⟩, ?_⟩
      intro st hmem
      simp at hmem
    · refine ⟨⟨fun hmem => by simp at hmem, fun hne => absurd hst hne⟩, ?_⟩
      intro st hmem
      simp at hmem
  · rw [if_neg hst]
    cases hsu : env.statusUpdate2 with
    | some e =>
      rw [afterStatusWrite_some env c _ _ _ e hsu]
      refine ⟨by simp [hst], ?_⟩
      intro st hmem
      simp at hmem
      exact hmem
    | none =>
      rw [afterStatusWrite_none env c _ _ _ hsu]
      rcases classifyOutcome_acts env c (reconcileCluster env.recEnv c).1
          (reconcileCluster env.recEnv c).2.1
          [Act.converge, Act.statusUpdate (reconcileCluster env.recEnv c).1.status]
        with ha | ha <;> rw [ha]
      · refine ⟨by simp [hst], ?_⟩
        intro st hmem
        simp at hmem
        exact hmem
      · refine ⟨by simp [hst], ?_⟩
        intro st hmem
        simp at hmem
        exact hmem

theorem C4_status_persist_iff_changed_witness :
    (baseCluster.deletionTimestampZero = true ∧
     ¬(baseCluster.status.phase = "" ∨ baseCluster.status.phase = ClusterUnknown) ∧
     clusterFinalizerName ∈ baseCluster.finalizers) ∧
    (Act.statusUpdate (reconcileCluster benignEngineEnv.recEnv baseCluster).1.status ∈
        (ReconcileTop benignEngineEnv baseCluster).acts ↔
      (reconcileCluster benignEngineEnv.recEnv baseCluster).1.status ≠ baseCluster.status) :=
  ⟨⟨by decide, by decide, by decide⟩,
   (C4_status_persist_iff_changed benignEngineEnv baseCluster (by decide) (by decide)
      (by decide)).1⟩

/-! ## Claim C5 -/

/-- C5: a live Cluster whose phase is unset or `Unknown` gets exactly one
action in the pass — the initial status write with phase `Provisioning` and
a false `Ready` condition with reason `Provisioning` — and the pass returns
an immediate requeue with no error and runs no convergence step. -/
theorem C5_initial_status_write (env : EngineEnv) (c : Cluster)
    (hdel : c.deletionTimestampZero = true)
    (hphase : c.status.phase = "" ∨ c.status.phase = ClusterUnknown)
    (hupd : env.statusUpdate1 = none) :
    ReconcileTop env c =
      { result := { requeue := true, requeueAfterSec := 0 }, err := none,
        acts := [Act.statusUpdate (initializedStatus c.status)] } ∧
    (initializedStatus c.status).phase = ClusterProvisioning ∧
    findStatusCondition (initializedStatus c.status).conditions ConditionReady =
      some ⟨ConditionReady, ConditionFalse, ReasonProvisioning,
            "Cluster is being provisioned"⟩ := by
  refine ⟨?_, rfl, ?_⟩
  · unfold ReconcileTop
    rw [if_neg (by simp [hdel]), if_pos hphase]
    unfold initialWrite
    rw [hupd]
  · exact find_setStatusCondition c.status.conditions _

theorem C5_initial_status_write_witness :
    (freshCluster.deletionTimestampZero = true ∧
     (freshCluster.status.phase = "" ∨ freshCluster.status.phase = ClusterUnknown)) ∧
    ReconcileTop benignEngineEnv freshCluster =
      { result := { requeue := true, requeueAfterSec := 0 }, err := none,
        acts := [Act.statusUpdate (initializedStatus freshCluster.status)] } :=
  ⟨⟨by decide, by decide⟩,
   (C5_initial_status_write benignEngineEnv freshCluster (by decide) (by decide)
      (by decide)).1⟩

/-! ## Claim C6 -/

/-- C6: when convergence fails with the "upstream server not ready" error
kind, the engine reports success with a fixed 10-second delayed re-enqueue;
any other convergence error is returned to the queue as a failure (given
that the status write, if any, succeeded). -/
theorem C6_server_not_ready_retry (env : EngineEnv) (c : Cluster)
    (hdel : c.deletionTimestampZero = true)
    (hphase : ¬(c.status.phase = "" ∨ c.status.phase = ClusterUnknown))
    (hfin : clusterFinalizerName ∈ c.finalizers)
    (hupd : env.statusUpdate2 = none) :
    ((reconcileCluster env.recEnv c).2.1 = some GoErr.serverNotReady →
      (ReconcileTop env c).result = { requeue := false, requeueAfterSec := 10 } ∧
      (ReconcileTop env c).err = none) ∧
    (∀ e, (reconcileCluster env.recEnv c).2.1 = some e → e ≠ GoErr.serverNotReady →
      (ReconcileTop env c).err = some e ∧
      (ReconcileTop env c).result = { requeue := false, requeueAfterSec := 0 }) := by
  rw [ReconcileTop_converge env c hdel hphase hfin]
  unfold convergePass
  by_cases hst : (reconcileCluster env.recEnv c).1.status = c.status
  · rw [if_pos hst]
    constructor
    · intro herr
      rw [herr, classifyOutcome_some, if_pos rfl]
      exact ⟨rfl, rfl⟩
    · intro e herr hne
      rw [herr, classifyOutcome_some, if_neg hne]
      exact ⟨rfl, rfl⟩
  · rw [if_neg hst, afterStatusWrite_none env c _ _ _ hupd]
    constructor
    · intro herr
      rw [herr, classifyOutcome_some, if_pos rfl]
      exact ⟨rfl, rfl⟩
    · intro e herr hne
      rw [herr, classifyOutcome_some, if_neg hne]
      exact ⟨rfl, rfl⟩

theorem C6_server_not_ready_retry_witness :
    ((reconcileCluster snrEngineEnv.recEnv baseCluster).2.1 = some GoErr.serverNotReady) ∧
    ((ReconcileTop snrEngineEnv baseCluster).result =
        { requeue := false, requeueAfterSec := 10 } ∧
     (ReconcileTop snrEngineEnv baseCluster).err = none) :=
  ⟨by decide,
   (C6_server_not_ready_retry snrEngineEnv baseCluster (by decide) (by decide) (by decide)
      rfl).1 (by decide)⟩

/-! ## Claim C7 -/

/-- C7: when both the spec version and the recorded host version are empty
and the host version query runs, convergence records the host's reported
version with any build-metadata suffix (after `+`) stripped and `-k3s1`
appended; and once `Status.HostVersion` is non-empty, no convergence pass
changes it. -/
theorem C7_host_version_resolution (env : ReconcileEnv) (c : Cluster) :
    (∀ gv, c.spec.version = "" → c.status.hostVersion = "" →
        env.serverVersion = .ok gv →
        Ev.serverVersionQuery ∈ (reconcile env c).2.2 →
        (reconcile env c).1.status.hostVersion =
          ((stringsSplit gv "+").headD "") ++ "-k3s1") ∧
    (c.status.hostVersion ≠ "" →
        (reconcile env c).1.status.hostVersion = c.status.hostVersion) := by
  constructor
  · intro gv h1 h2 h3 h4
    rw [reconcile_evs] at h4
    rw [reconcile_fst]
    exact reconcileE_hostVersion_set env c gv h1 h2 h3 h4
  · intro h
    rw [reconcile_fst]
    exact reconcileE_hostVersion_keep env c h

theorem C7_host_version_resolution_witness :
    (versionCluster.spec.version = "" ∧ versionCluster.status.hostVersion = "" ∧
     Ev.serverVersionQuery ∈ (reconcile benignEnv versionCluster).2.2) ∧
    (reconcile benignEnv versionCluster).1.status.hostVersion = "v1.30.2-k3s1" :=
  ⟨⟨by decide, by decide, by decide⟩,
   (C7_host_version_resolution benignEnv versionCluster).1 "v1.30.2+rke2r1" (by decide)
      (by decide) rfl (by decide)⟩

/-! ## Claim C8 -/

/-- C8: with a non-empty policy label on the namespace, convergence
resolves the policy and fails with the distinguished validation error when
the Cluster is named `system` or its mode differs from the policy's allowed
mode; the pass performs exactly the namespace read, the policy read and the
validation check — no owned-resource creation step runs. -/
theorem C8_policy_validation_blocks (env : ReconcileEnv) (c : Cluster) (p : String)
    (pol : PolicyInfo)
    (hns : env.getNamespace = .ok ⟨some p⟩) (hp : p ≠ "")
    (hpol : env.policyResult = .ok pol)
    (hbad : c.name = ClusterInvalidName ∨ c.spec.mode ≠ pol.allowedMode) :
    isValidationErr (reconcile env c).2.1 = true ∧
    (reconcile env c).2.2 = [Ev.getNamespace, Ev.getPolicy, Ev.validateCheck] := by
  obtain ⟨m, hm⟩ := reconcileE_validate_fail env c p pol hns hp hpol hbad
  rw [reconcile_err_eq, reconcile_evs, hm]
  exact ⟨rfl, rfl⟩

theorem C8_policy_validation_blocks_witness :
    (baseCluster.spec.mode ≠ (⟨"pol1", "virtual"⟩ : PolicyInfo).allowedMode) ∧
    (isValidationErr (reconcile polEnv baseCluster).2.1 = true ∧
     (reconcile polEnv baseCluster).2.2 =
       [Ev.getNamespace, Ev.getPolicy, Ev.validateCheck]) :=
  ⟨by decide,
   C8_policy_validation_blocks polEnv baseCluster "pol1" ⟨"pol1", "virtual"⟩ rfl (by decide)
     rfl (Or.inr (by decide))⟩

/-! ## Claim C9 -/

/-- C9: when the namespace has no policy label (or an empty-valued one),
convergence never runs the validation check, never reads a policy, and
never produces a validation error — even for a Cluster named `system` —
so the pass proceeds into the convergence steps. -/
theorem C9_no_policy_label_skips_validation (env : ReconcileEnv) (c : Cluster)
    (nsi : NsInfo)
    (hns : env.getNamespace = .ok nsi)
    (hl : nsi.policyLabel = none ∨ nsi.policyLabel = some "") :
    Ev.validateCheck ∉ (reconcile env c).2.2 ∧
    Ev.getPolicy ∉ (reconcile env c).2.2 ∧
    isValidationErr (reconcile env c).2.1 = false := by
  obtain ⟨h1, h2, h3⟩ := reconcileE_no_validation env c nsi hns hl
  refine ⟨by rw [reconcile_evs]; exact h1, by rw [reconcile_evs]; exact h2, ?_⟩
  rw [reconcile_err_eq]
  cases hE : reconcileE env c with
  | ok t => rfl
  | error x =>
    obtain ⟨ee, hee⟩ := h3 x hE
    have hval : isValidationErr (some x.2) = false := by
      rw [hee]
      cases ee <;> rfl
    exact hval

theorem C9_no_policy_label_skips_validation_witness :
    (sysCluster.name = ClusterInvalidName) ∧
    (Ev.validateCheck ∉ (reconcile benignEnv sysCluster).2.2 ∧
     Ev.getPolicy ∉ (reconcile benignEnv sysCluster).2.2 ∧
     isValidationErr (reconcile benignEnv sysCluster).2.1 = false) :=
  ⟨by decide,
   C9_no_policy_label_skips_validation benignEnv sysCluster ⟨none⟩ rfl (Or.inl rfl)⟩

/-! ## Claim C10 -/

/-- C10: when the failing-service error carries the range hint but the
hinted value does not parse, `lookupServiceCIDR` returns that parse error
immediately — without attempting the pod-argument fallback (the trace stops
at the failing-service step) — and the caller then records the default
shared service CIDR; when a hinted or pod-argument value does parse, the
recorded value is the canonical masked network produced by CIDR parsing,
not the raw text. -/
theorem C10_cidr_hint_parse (env : ReconcileEnv) (c : Cluster) (msg : String) :
    (env.failingServiceCreateErr = some msg →
      ∀ hlen : 1 < (stringsSplit msg rangeHintMarker).length,
        (parseCIDR (stringsTrimSpace ((stringsSplit msg rangeHintMarker).get ⟨1, hlen⟩)) =
            none →
          lookupServiceCIDR env =
            ("", some (GoErr.cidrParse
                (stringsTrimSpace ((stringsSplit msg rangeHintMarker).get ⟨1, hlen⟩))),
             [Ev.cidrLookupFailingService]) ∧
          (c.spec.mode = SharedClusterMode → c.spec.serviceCIDR = "" →
            Ev.setCIDRs ∈ (reconcile env c).2.2 →
            (reconcile env c).1.status.serviceCIDR = defaultSharedServiceCIDR)) ∧
        (∀ canon,
          parseCIDR (stringsTrimSpace ((stringsSplit msg rangeHintMarker).get ⟨1, hlen⟩)) =
              some canon →
          lookupServiceCIDR env = (canon, none, [Ev.cidrLookupFailingService]))) ∧
    (∀ arg raw canon, hintAbsent env → env.listPods = .ok [⟨[arg]⟩] →
      strStartsWith arg serviceRangeFlag = true →
      strTrimLeading arg serviceRangeFlag = raw →
      parseCIDR raw = some canon →
      lookupServiceCIDR env =
        (canon, none, [Ev.cidrLookupFailingService, Ev.cidrLookupPodList])) := by
  constructor
  · intro hmsg hlen
    constructor
    · intro hbad
      have hlk := lookupServiceCIDR_hint_bad env msg hmsg hlen hbad
      refine ⟨hlk, fun hmode hsc hreach => ?_⟩
      rw [reconcile_evs] at hreach
      rw [reconcile_fst, (reconcileE_cidr env c hreach).2,
        serviceCIDROf_shared env c.spec hsc hmode]
      exact lookupOutcome_err env _ (by rw [hlk])
    · intro canon hok
      exact lookupServiceCIDR_hint_ok env msg canon hmsg hlen hok
  · intro arg raw canon hno hlp hstart hdrop hp
    rw [lookupServiceCIDR_pod env hno, lookupFromPod_first env [arg] hlp,
      scanAPIServerArgs_single arg raw canon hstart hdrop hp]
    rfl

theorem C10_cidr_hint_parse_witness :
    lookupServiceCIDR hintBadEnv =
      ("", some (GoErr.cidrParse "not-a-cidr obviously"), [Ev.cidrLookupFailingService]) ∧
    (reconcile hintBadEnv sharedNoCidrCluster).1.status.serviceCIDR =
      defaultSharedServiceCIDR ∧
    lookupServiceCIDR podFlagEnv =
      ("10.96.0.0/12", none, [Ev.cidrLookupFailingService, Ev.cidrLookupPodList]) :=
  ⟨(((C10_cidr_hint_parse hintBadEnv sharedNoCidrCluster hintBadMsg).1 rfl
      (by decide)).1 (by decide)).1,
   (((C10_cidr_hint_parse hintBadEnv sharedNoCidrCluster hintBadMsg).1 rfl
      (by decide)).1 (by decide)).2 (by decide) (by decide) (by decide),
   (C10_cidr_hint_parse podFlagEnv sharedNoCidrCluster "unused").2
     "--service-cluster-ip-range=10.96.3.8/12" "10.96.3.8/12" "10.96.0.0/12"
     (Or.inr ⟨"no range in this message", rfl, by decide⟩) rfl (by decide) (by decide)
     (by decide)⟩

end K3k
